import Mathlib

/-!
chai-big: decimal-aware assertions for a chainable assertion framework

A shallow embedding of `src/chai-bn.js`.  The plugin is a function of the
decimal engine (`Big`) and of the host framework (`chai`, `utils`); both are
modelled here only as far as the plugin calls into them:

* `Big`, `Big.ofString`, `Big.cmp`, `Big.sub`, `Big.add` : the decimal engine;
* `Value` : the JavaScript values that reach the plugin;
* `Assertion`, `Assertion.assert`, `getMessage` : the host's chain object and
  its assert primitive;
* `isBig`, `convert`, `overwriteMethod`, `overwriteProperty`, the six method
  rules and the two property rules, `install...` : the plugin itself.
-/

namespace ChaiBig

/-! ## The decimal engine -/

/-- Modelled from the spec: the decimal engine (the `Big` constructor handed to
the plugin) is not part of the sources.  A decimal value is an exact signed
decimal, here the number `mant / 10 ^ scale`. -/
structure Big where
  mant : Int
  scale : Nat
  deriving DecidableEq, Repr

namespace Big

/-- The rational number a decimal value denotes. -/
def toRat (x : Big) : ℚ := (x.mant : ℚ) / (10 : ℚ) ^ x.scale

/-- Modelled from the spec: three-way comparison of the engine (`cmp`), exact:
the sign of `x - y` computed over a common denominator. -/
def cmp (x y : Big) : Int :=
  Int.sign (x.mant * 10 ^ y.scale - y.mant * 10 ^ x.scale)

/-- Engine primitive `eq`: `x.cmp(y) === 0`. -/
def eq (x y : Big) : Bool := decide (cmp x y = 0)

/-- Engine primitive `gt`: `x.cmp(y) > 0`. -/
def gt (x y : Big) : Bool := decide (cmp x y > 0)

/-- Engine primitive `gte`: `x.cmp(y) > -1`. -/
def gte (x y : Big) : Bool := decide (cmp x y > -1)

/-- Engine primitive `lt`: `x.cmp(y) < 0`. -/
def lt (x y : Big) : Bool := decide (cmp x y < 0)

/-- Engine primitive `lte`: `x.cmp(y) < 1`. -/
def lte (x y : Big) : Bool := decide (cmp x y < 1)

/-- Engine primitive `sub` (`minus`), exact. -/
def sub (x y : Big) : Big :=
  ⟨x.mant * 10 ^ y.scale - y.mant * 10 ^ x.scale, x.scale + y.scale⟩

/-- Engine primitive `add` (`plus`), exact. -/
def add (x y : Big) : Big :=
  ⟨x.mant * 10 ^ y.scale + y.mant * 10 ^ x.scale, x.scale + y.scale⟩

/-- The value of `Big(0)`. -/
def zero : Big := ⟨0, 0⟩

/-- The number written by a list of decimal digit characters. -/
def digitsToNat (ds : List Char) : Nat :=
  ds.foldl (fun n c => 10 * n + (c.toNat - 48)) 0

/-- The optional exponent part of a literal: nothing, or `e`/`E`, an optional
sign, and at least one digit up to the end of the text. -/
def parseExponent : List Char → Option Int
  | [] => some 0
  | c :: rest =>
    if c = 'e' ∨ c = 'E' then
      let (neg, ds) :=
        match rest with
        | '-' :: r => (true, r)
        | '+' :: r => (false, r)
        | r => (false, r)
      if ds ≠ [] ∧ ds.all Char.isDigit then
        some (if neg then -(digitsToNat ds : Int) else (digitsToNat ds : Int))
      else none
    else none

/-- A decimal with digits `ip` before the point, `fp` after it and decimal
exponent `e`. -/
def ofParts (neg : Bool) (ip fp : List Char) (e : Int) : Big :=
  let m : Int := digitsToNat (ip ++ fp)
  let m := if neg then -m else m
  let sc : Int := (fp.length : Int) - e
  if 0 ≤ sc then ⟨m, sc.toNat⟩ else ⟨m * 10 ^ (-sc).toNat, 0⟩

/-- Modelled from the spec: `new Big(s)` on a string.  The engine accepts the
decimal literals `-?(\d+(\.\d*)?|\.\d+)(e[+-]?\d+)?` (case-insensitive `e`)
and rejects every other text. -/
def ofString (s : String) : Option Big :=
  let cs := s.data
  let (neg, cs) :=
    match cs with
    | '-' :: r => (true, r)
    | r => (false, r)
  let (ip, r1) := cs.span Char.isDigit
  match r1 with
  | '.' :: r2 =>
    let (fp, r3) := r2.span Char.isDigit
    if ip = [] ∧ fp = [] then none
    else (parseExponent r3).map (ofParts neg ip fp)
  | _ =>
    if ip = [] then none
    else (parseExponent r1).map (ofParts neg ip [])

end Big

/-! ## JavaScript values, failures and the host's chain object -/

/-- The JavaScript values that can reach the plugin as a subject, an operand or
a message.  `big` is an instance of the `Big` constructor given to the plugin;
`foreignBig` is a decimal made by another, compatible copy of the engine (not
an `instanceof Big`, but its constructor is named `Big` and it carries the
engine's methods); `object` is any other object, with the name of its
constructor when it has one.  Native numbers are kept by their integer value:
the plugin only looks at their type and truthiness. -/
inductive Value where
  | undefined
  | null
  | bool (b : Bool)
  | number (n : Int)
  | string (s : String)
  | big (b : Big)
  | foreignBig (b : Big)
  | array (xs : List Value)
  | object (ctorName : Option String)

namespace Value

/-- JavaScript truthiness (`if (v)`, `v && ...`). -/
def truthy : Value → Bool
  | undefined => false
  | null => false
  | bool b => b
  | number n => decide (n ≠ 0)
  | string s => decide (s ≠ "")
  | _ => true

/-- Whether `typeof v === 'string'`. -/
def isString : Value → Bool
  | string _ => true
  | _ => false

/-- The name of `v.constructor`, when `v` is truthy and has a constructor. -/
def constructorName : Value → Option String
  | undefined => none
  | null => none
  | bool _ => some "Boolean"
  | number _ => some "Number"
  | string _ => some "String"
  | big _ => some "Big"
  | foreignBig _ => some "Big"
  | array _ => some "Array"
  | object n => n

end Value

/-- What a call can throw.  `assertion` is the host's `AssertionError` with its
message and its `actual` and `expected` fields; `engine` is an error raised by
the decimal engine; `typeError` is the language's own error for a method call
on a value that lacks the method. -/
inductive Failure where
  | assertion (message : String) (actual expected : Value)
  | engine (message : String)
  | typeError

/-- The renderings the two libraries and the language supply: the host's
`objDisplay`, the engine's `toString`, and the language's string conversion of
the values that are neither primitive text nor decimals.  They are parameters
of the embedding. -/
structure Rendering where
  objDisplay : Value → String
  bigToString : Big → String
  otherToString : Value → String

/-- The chain object of the host (`this` inside an assertion): the subject
(`this._obj`, flag `object`) and the flags `negate`, `message` and
`bignumber`.  An unset `message` flag reads `undefined`. -/
structure Assertion where
  obj : Value
  negate : Bool
  message : Value
  bignumber : Bool

/-- The assertion `new chai.Assertion(value)` creates: no flag set. -/
def Assertion.fresh (value : Value) : Assertion :=
  ⟨value, false, Value.undefined, false⟩

/-- What a call on a chain comes to: the state of the chain when the call
ends, and whether it returned or threw. -/
structure Outcome where
  chain : Assertion
  result : Except Failure Unit

/-- Whether the call returned. -/
def Outcome.passes (o : Outcome) : Prop := o.result = Except.ok ()

/-- Whether the call threw the host's assertion failure. -/
def Outcome.fails (o : Outcome) : Prop :=
  ∃ m a e, o.result = Except.error (Failure.assertion m a e)

/-- A method of the chain: called on a chain with the argument list. -/
abbrev Method := Assertion → List Value → Outcome

/-- A property of the chain: its getter, called on a chain. -/
abbrev Property := Assertion → Outcome

/-- The language's conversion of a value to text (`'' + v`, a template
literal). -/
def Rendering.toText (R : Rendering) : Value → String
  | Value.string s => s
  | Value.undefined => "undefined"
  | Value.null => "null"
  | Value.bool true => "true"
  | Value.bool false => "false"
  | Value.big b => R.bigToString b
  | Value.foreignBig b => R.bigToString b
  | v => R.otherToString v

/-! ## The host's assert primitive -/

/-- Replacement of every occurrence of `pat`, left to right, by `rep`
(`String.prototype.replace` with a global pattern); `skip` counts the
characters of a match still to be dropped. -/
def replaceAllAux (pat rep : List Char) : Nat → List Char → List Char
  | _, [] => []
  | skip + 1, _ :: cs => replaceAllAux pat rep skip cs
  | 0, c :: cs =>
    if pat.isPrefixOf (c :: cs) then rep ++ replaceAllAux pat rep (pat.length - 1) cs
    else c :: replaceAllAux pat rep 0 cs

/-- Replace every occurrence of the text `pat` in `s` by `rep`. -/
def replaceAll (pat rep s : String) : String :=
  ⟨replaceAllAux pat.data rep.data 0 s.data⟩

/-- The substitutions of the host's `getMessage`, in its order: `#{this}` is
replaced by the display of the subject, then `#{act}` by that of the actual
value, then `#{exp}` by that of the expected value. -/
def substitute (R : Rendering) (subject actual expected : Value) (template : String) : String :=
  replaceAll "#{exp}" (R.objDisplay expected)
    (replaceAll "#{act}" (R.objDisplay actual)
      (replaceAll "#{this}" (R.objDisplay subject) template))

/-- The host's `getMessage`: the template for the chain's polarity with the
substitutions made, and the chain's `message` flag, when truthy, put in front
with `': '`. -/
def getMessage (R : Rendering) (self : Assertion) (msg negateMsg : String)
    (expected actual : Value) : String :=
  let msg := if self.negate then negateMsg else msg
  let msg := substitute R self.obj actual expected msg
  if self.message.truthy then R.toText self.message ++ ": " ++ msg else msg

/-- The host's `Assertion.prototype.assert(expr, msg, negateMsg, expected,
actual)`: passes when `expr`, inverted on a negated chain, is true; otherwise
throws the assertion failure.  Without a fifth argument the actual value is
the chain's subject. -/
def Assertion.assert (R : Rendering) (self : Assertion) (expr : Bool)
    (msg negateMsg : String) (expected : Value) (actual : Option Value) :
    Except Failure Unit :=
  let ok := if self.negate then !expr else expr
  let act := actual.getD self.obj
  if ok then Except.ok ()
  else Except.error (Failure.assertion (getMessage R self msg negateMsg expected act) act expected)

/-! ## The engine's methods as the plugin calls them -/

/-- The receiver of an engine method (`this`): a decimal, of either copy of
the engine; on any other value the method lookup inside the engine fails. -/
def receiver : Value → Except Failure Big
  | Value.big b => Except.ok b
  | Value.foreignBig b => Except.ok b
  | _ => Except.error Failure.typeError

/-- The text of the error the engine throws on a value it cannot read. -/
def invalidNumber : String := "[big.js] Invalid number"

/-- Modelled from the spec: `new Big(s)` for a string `s`, throwing the
engine's own error on a malformed literal. -/
def construct (s : String) : Except Failure Big :=
  match Big.ofString s with
  | some b => Except.ok b
  | none => Except.error (Failure.engine invalidNumber)

/-- The argument of an engine method, which the engine passes through its
constructor: a decimal is taken as it is, a string is read as a literal, and
on the other values that can be in an operand position (`undefined` for an
omitted operand, an object that only bears the name `Big`) the constructor
throws. -/
def operand : Value → Except Failure Big
  | Value.big b => Except.ok b
  | Value.foreignBig b => Except.ok b
  | Value.string s => construct s
  | _ => Except.error (Failure.engine invalidNumber)

/-- A comparison method of the engine's prototype applied with `this` bound:
`op.bind(self)(y)`. -/
def callCompare (op : Big → Big → Bool) (self y : Value) : Except Failure Bool := do
  let x ← receiver self
  let y ← operand y
  pure (op x y)

/-- An arithmetic method called on a value: `self.op(y)`; the result is a
decimal of the receiver's copy of the engine. -/
def callArith (op : Big → Big → Big) (self y : Value) : Except Failure Value := do
  let x ← receiver self
  let y ← operand y
  match self with
  | Value.foreignBig _ => pure (Value.foreignBig (op x y))
  | _ => pure (Value.big (op x y))

/-- The call `v.toString()`: a type error on `undefined` and `null`, the
value's text otherwise. -/
def callToString (R : Rendering) : Value → Except Failure String
  | Value.undefined => Except.error Failure.typeError
  | Value.null => Except.error Failure.typeError
  | v => Except.ok (R.toText v)

/-- Source: `const isEqualTo = Big.prototype.eq`. -/
def isEqualTo : Value → Value → Except Failure Bool := callCompare Big.eq

/-- Source: `const isGreaterThan = Big.prototype.gt`. -/
def isGreaterThan : Value → Value → Except Failure Bool := callCompare Big.gt

/-- Source: `const isGreaterThanOrEqualTo = Big.prototype.gte`. -/
def isGreaterThanOrEqualTo : Value → Value → Except Failure Bool := callCompare Big.gte

/-- Source: `const isLessThan = Big.prototype.lt`. -/
def isLessThan : Value → Value → Except Failure Bool := callCompare Big.lt

/-- Source: `const isLessThanOrEqualTo = Big.prototype.lte`. -/
def isLessThanOrEqualTo : Value → Value → Except Failure Bool := callCompare Big.lte

/-! ## The plugin -/

/-- Source `isBig`: `object instanceof Big || (object && object.constructor &&
object.constructor.name === 'Big')`. -/
def isBig (object : Value) : Bool :=
  (match object with
    | Value.big _ => true
    | _ => false)
  || (object.truthy && object.constructorName == some "Big")

/-- The template of the failure `convert` raises. -/
def invalidOperandTemplate : String := "expected #{act} to be an instance of Big or string"

/-- Source `convert`: a value `isBig` recognises is returned as it is, a string
goes through `new Big(value)`, and on any other value a new assertion on the
value asserts `false` with the invalid-operand template. -/
def convert (R : Rendering) (value : Value) : Except Failure Value :=
  if isBig value then Except.ok value
  else
    match value with
    | Value.string s => (construct s).map Value.big
    | _ => do
      (Assertion.fresh value).assert R false invalidOperandTemplate "" Value.undefined none
      pure Value.undefined

/-- The source's `.map(convert)` over the operands: left to right, stopping at
the first that throws. -/
def convertAll (R : Rendering) : List Value → Except Failure (List Value)
  | [] => Except.ok []
  | v :: vs =>
    match convert R v with
    | Except.error e => Except.error e
    | Except.ok w =>
      match convertAll R vs with
      | Except.error e => Except.error e
      | Except.ok ws => Except.ok (w :: ws)

/-- The language's `xs.concat(v)`: an array argument is spread, any other value
is appended as one element. -/
def concatValue (xs : List Value) : Value → List Value
  | Value.array ys => xs ++ ys
  | v => xs ++ [v]

/-- The `i`-th argument of a call, `undefined` when it is not there. -/
def argAt (arguments : List Value) (i : Nat) : Value := arguments.getD i Value.undefined

/-- Source `overwriteMethod` inside `overwriteMethods`: on a chain with the
`bignumber` flag the subject and the arguments before `messageIndex` are
converted and `newAssertion` is applied to them followed by
`arguments[messageIndex]`; on any other chain `originalAssertion` is applied
to the arguments. -/
def overwriteMethod (R : Rendering) (messageIndex : Nat) (newAssertion : Method)
    (originalAssertion : Method) : Method :=
  fun self arguments =>
    if self.bignumber then
      match convert R self.obj with
      | Except.error e => ⟨self, Except.error e⟩
      | Except.ok actual =>
        match convertAll R (arguments.take messageIndex) with
        | Except.error e => ⟨self, Except.error e⟩
        | Except.ok converted =>
          newAssertion self (concatValue ([actual] ++ converted) (argAt arguments messageIndex))
    else originalAssertion self arguments

/-- Source `overwriteProperty` inside `overwriteProperties`: on a chain with
the `bignumber` flag the subject is converted and `newAssertion` is applied to
it; on any other chain the original getter is called. -/
def overwriteProperty (R : Rendering) (newAssertion : Method)
    (originalAssertion : Property) : Property :=
  fun self =>
    if self.bignumber then
      match convert R self.obj with
      | Except.error e => ⟨self, Except.error e⟩
      | Except.ok actual => newAssertion self [actual]
    else originalAssertion self

/-- Source: `if (msg) { flag(this, 'message', msg); }`. -/
def setMessage (self : Assertion) (msg : Value) : Assertion :=
  if msg.truthy then { self with message := msg } else self

/-- The body shared by the five equality and order rules,
`function (actual, expected, msg)`: the message flag is set from a truthy
`msg`, the predicate is evaluated, and the chain's `assert` is called with the
two templates, `expected.toString()` and `actual.toString()`. -/
def compareRule (R : Rendering) (predicate : Value → Value → Except Failure Bool)
    (msg negateMsg : String) : Method :=
  fun self args =>
    let actual := argAt args 0
    let expected := argAt args 1
    let self := setMessage self (argAt args 2)
    ⟨self, do
      let expr ← predicate actual expected
      let exp ← callToString R expected
      let act ← callToString R actual
      self.assert R expr msg negateMsg (Value.string exp) (some (Value.string act))⟩

/-- Source rule for `equal`, `equals`, `eq`: `isEqualTo.bind(expected)(actual)`. -/
def equalRule (R : Rendering) : Method :=
  compareRule R (fun actual expected => isEqualTo expected actual)
    "expected #{act} to equal #{exp}"
    "expected #{act} to be different from #{exp}"

/-- Source rule for `above`, `gt`, `greaterThan`:
`isGreaterThan.bind(actual)(expected)`. -/
def aboveRule (R : Rendering) : Method :=
  compareRule R (fun actual expected => isGreaterThan actual expected)
    "expected #{act} to be greater than #{exp}"
    "expected #{act} to be less than or equal to #{exp}"

/-- Source rule for `least`, `gte`:
`isGreaterThanOrEqualTo.bind(actual)(expected)`. -/
def leastRule (R : Rendering) : Method :=
  compareRule R (fun actual expected => isGreaterThanOrEqualTo actual expected)
    "expected #{act} to be greater than or equal to #{exp}"
    "expected #{act} to be less than #{exp}"

/-- Source rule for `below`, `lt`, `lessThan`: `isLessThan.bind(actual)(expected)`. -/
def belowRule (R : Rendering) : Method :=
  compareRule R (fun actual expected => isLessThan actual expected)
    "expected #{act} to be less than #{exp}"
    "expected #{act} to be greater than or equal to #{exp}"

/-- Source rule for `most`, `lte`:
`isLessThanOrEqualTo.bind(actual)(expected)`. -/
def mostRule (R : Rendering) : Method :=
  compareRule R (fun actual expected => isLessThanOrEqualTo actual expected)
    "expected #{act} to be less than or equal to #{exp}"
    "expected #{act} to be greater than #{exp}"

/-- The predicate of `closeTo`:
`isGreaterThanOrEqualTo.bind(actual)(expected.sub(delta)) &&
isLessThanOrEqualTo.bind(actual)(expected.add(delta))`, the second conjunct
evaluated only when the first is true. -/
def closeToPredicate (actual expected delta : Value) : Except Failure Bool := do
  let lo ← callArith Big.sub expected delta
  let c ← isGreaterThanOrEqualTo actual lo
  if c then
    let hi ← callArith Big.add expected delta
    isLessThanOrEqualTo actual hi
  else pure false

/-- Source rule for `closeTo`, `function (actual, expected, delta, msg)`; the
two templates are template literals with the text of `delta` put in. -/
def closeToRule (R : Rendering) : Method :=
  fun self args =>
    let actual := argAt args 0
    let expected := argAt args 1
    let delta := argAt args 2
    let self := setMessage self (argAt args 3)
    ⟨self, do
      let expr ← closeToPredicate actual expected delta
      let msg := "expected #{act} to be within '" ++ R.toText delta ++ "' of #{exp}"
      let negateMsg := "expected #{act} to be further than '" ++ R.toText delta ++ "' from #{exp}"
      let exp ← callToString R expected
      let act ← callToString R actual
      self.assert R expr msg negateMsg (Value.string exp) (some (Value.string act))⟩

/-- Source rule for the property `negative`: `isLessThan.bind(value)(Big(0))`,
with `value.toString()` as the expected value and no actual value. -/
def negativeRule (R : Rendering) : Method :=
  fun self args =>
    let value := argAt args 0
    ⟨self, do
      let expr ← isLessThan value (Value.big Big.zero)
      let exp ← callToString R value
      self.assert R expr "expected #{this} to be negative" "expected #{this} to not be negative"
        (Value.string exp) none⟩

/-- Source rule for the property `zero`: `isEqualTo.bind(value)(Big(0.0))`. -/
def zeroRule (R : Rendering) : Method :=
  fun self args =>
    let value := argAt args 0
    ⟨self, do
      let expr ← isEqualTo value (Value.big Big.zero)
      let exp ← callToString R value
      self.assert R expr "expected #{this} to be zero" "expected #{this} to not be zero"
        (Value.string exp) none⟩

/-- The methods and properties of the host's `Assertion`, by name. -/
structure Registry where
  methods : String → Method
  properties : String → Property

namespace Registry

/-- Host `Assertion.overwriteMethod(name, fn)`: the method `name` becomes `fn`
applied to the method that was there. -/
def overwriteMethod (A : Registry) (name : String) (fn : Method → Method) : Registry :=
  { A with methods := fun n => if n = name then fn (A.methods name) else A.methods n }

/-- Host `Assertion.overwriteProperty(name, fn)`. -/
def overwriteProperty (A : Registry) (name : String) (fn : Property → Property) : Registry :=
  { A with properties := fun n => if n = name then fn (A.properties name) else A.properties n }

/-- Host `Assertion.addProperty(name, getter)`. -/
def addProperty (A : Registry) (name : String) (getter : Property) : Registry :=
  { A with properties := fun n => if n = name then getter else A.properties n }

end Registry

/-- Source `overwriteMethods(messageIndex, methodNames, newAssertion)`: every
name is overwritten with the same wrapper. -/
def overwriteMethods (R : Rendering) (messageIndex : Nat) (methodNames : List String)
    (newAssertion : Method) (A : Registry) : Registry :=
  methodNames.foldl (fun A methodName =>
    A.overwriteMethod methodName (overwriteMethod R messageIndex newAssertion)) A

/-- Source `overwriteProperties(propertyNames, newAssertion)`. -/
def overwriteProperties (R : Rendering) (propertyNames : List String)
    (newAssertion : Method) (A : Registry) : Registry :=
  propertyNames.foldl (fun A propertyName =>
    A.overwriteProperty propertyName (overwriteProperty R newAssertion)) A

/-- Source getter of the property `bignumber`:
`utils.flag(this, 'bignumber', true)`. -/
def bignumber : Property :=
  fun self => ⟨{ self with bignumber := true }, Except.ok ()⟩

/-- The plugin, `function (chai, utils)`: the registrations in the order of
the source. -/
def plugin (R : Rendering) (A : Registry) : Registry :=
  let A := A.addProperty "bignumber" bignumber
  let A := overwriteMethods R 1 ["equal", "equals", "eq"] (equalRule R) A
  let A := overwriteMethods R 1 ["above", "gt", "greaterThan"] (aboveRule R) A
  let A := overwriteMethods R 1 ["least", "gte"] (leastRule R) A
  let A := overwriteMethods R 1 ["below", "lt", "lessThan"] (belowRule R) A
  let A := overwriteMethods R 1 ["most", "lte"] (mostRule R) A
  let A := overwriteMethods R 2 ["closeTo"] (closeToRule R) A
  let A := overwriteProperties R ["negative"] (negativeRule R) A
  overwriteProperties R ["zero"] (zeroRule R) A

/-! ## Vocabulary of the statements -/

/-- The decimal a valid operand stands for: a decimal of either copy of the
engine, or a string the engine reads as a literal. -/
def Value.decimal : Value → Option Big
  | Value.big b => some b
  | Value.foreignBig b => some b
  | Value.string s => Big.ofString s
  | _ => none

/-- The value `w` is the decimal `a`, of either copy of the engine. -/
def Value.holds (w : Value) (a : Big) : Prop := w = Value.big a ∨ w = Value.foreignBig a

/-- What a rule receives in its message position when the call's argument at
the message index is `v`: `concat` spreads an array, so the rule then receives
the array's first element. -/
def spreadHead : Value → Value
  | Value.array ys => ys.getD 0 Value.undefined
  | v => v

/-- A summary of the equality and order rules, proved against the rules
below (`comparison_call`): the method's name, the engine's verdict on the
decimal `a` of the subject and the decimal `b` of the argument, and the two
templates. -/
def comparisonTable : List (String × (Big → Big → Bool) × String × String) :=
  let equal := (fun a b => Big.eq b a,
    "expected #{act} to equal #{exp}", "expected #{act} to be different from #{exp}")
  let above := (fun a b => Big.gt a b,
    "expected #{act} to be greater than #{exp}",
    "expected #{act} to be less than or equal to #{exp}")
  let least := (fun a b => Big.gte a b,
    "expected #{act} to be greater than or equal to #{exp}",
    "expected #{act} to be less than #{exp}")
  let below := (fun a b => Big.lt a b,
    "expected #{act} to be less than #{exp}",
    "expected #{act} to be greater than or equal to #{exp}")
  let most := (fun a b => Big.lte a b,
    "expected #{act} to be less than or equal to #{exp}",
    "expected #{act} to be greater than #{exp}")
  [("equal", equal), ("equals", equal), ("eq", equal),
   ("above", above), ("gt", above), ("greaterThan", above),
   ("least", least), ("gte", least),
   ("below", below), ("lt", below), ("lessThan", below),
   ("most", most), ("lte", most)]

/-- Of the two outcomes exactly one passes, and the other is the host's
assertion failure. -/
def exactlyOnePasses (o o' : Outcome) : Prop :=
  (o.passes ∧ o'.fails) ∨ (o.fails ∧ o'.passes)

/-- The chain with the `not` modifier applied: the `negate` flag inverted. -/
def Assertion.not (c : Assertion) : Assertion := { c with negate := !c.negate }

/-- The outcome is the invalid-operand failure raised on the value `v`: the
host's assertion failure with `v` as its actual value and a message that ends
with the text of `convert`. -/
def Outcome.invalidOperand (o : Outcome) (v : Value) : Prop :=
  ∃ m : String, o.result = Except.error (Failure.assertion m v Value.undefined)
    ∧ ∃ pre : String, m = pre ++ " to be an instance of Big or string"

/-- A rendering for the worked examples: a string is displayed in quotes, as
the host does, a native number by its digits, and a decimal is written by its
digits, with an exponent when it has decimal places. -/
def exampleRendering : Rendering :=
  { objDisplay := fun v =>
      match v with
      | Value.string s => "'" ++ s ++ "'"
      | Value.number n => toString n
      | Value.undefined => "undefined"
      | Value.null => "null"
      | _ => "[object]"
    bigToString := fun b =>
      if b.scale = 0 then toString b.mant else toString b.mant ++ "e-" ++ toString b.scale
    otherToString := fun _ => "[object]" }

/-- A host for the worked examples: every original method and property
passes and leaves the chain as it is. -/
def exampleHost : Registry :=
  { methods := fun _ c _ => ⟨c, Except.ok ()⟩
    properties := fun _ c => ⟨c, Except.ok ()⟩ }

/-- The text `s` ends with the text `t`. -/
def endsWith (s t : String) : Prop := ∃ pre : String, s = pre ++ t

/-- The text `s` begins with the text `t`. -/
def beginsWith (s t : String) : Prop := ∃ rest : String, s = t ++ rest

/-- The equality and order methods the plugin overwrites, with their rule;
all have message index 1. -/
def comparisonMethods (R : Rendering) : List (String × Method) :=
  [("equal", equalRule R), ("equals", equalRule R), ("eq", equalRule R),
   ("above", aboveRule R), ("gt", aboveRule R), ("greaterThan", aboveRule R),
   ("least", leastRule R), ("gte", leastRule R),
   ("below", belowRule R), ("lt", belowRule R), ("lessThan", belowRule R),
   ("most", mostRule R), ("lte", mostRule R)]

/-- The alias groups of the overwritten methods. -/
def aliasGroups : List (List String) :=
  [["equal", "equals", "eq"], ["above", "gt", "greaterThan"], ["least", "gte"],
   ["below", "lt", "lessThan"], ["most", "lte"]]

/-- The alias groups with the rule the source registers for each
(`overwriteMethods(1, [...], function ...)`). -/
def groupRules (R : Rendering) : List (List String × Method) :=
  [(["equal", "equals", "eq"], equalRule R),
   (["above", "gt", "greaterThan"], aboveRule R),
   (["least", "gte"], leastRule R),
   (["below", "lt", "lessThan"], belowRule R),
   (["most", "lte"], mostRule R)]

/-- A host whose original `eq` is not its original `equal`, as after another
extension has overwritten `eq` alone: the original `eq` fails on every chain,
every other original method and property passes. -/
def divergentHost : Registry :=
  { methods := fun n c _ =>
      if n = "eq" then ⟨c, Except.error (Failure.assertion "eq" c.obj Value.undefined)⟩
      else ⟨c, Except.ok ()⟩
    properties := fun _ c => ⟨c, Except.ok ()⟩ }

/-- The decimal branch of the method wrapper, the body under
`if (utils.flag(this, 'bignumber'))` in the source's `overwriteMethod`: convert
the subject, convert the arguments before `messageIndex`, and apply
`newAssertion` to them followed by `arguments[messageIndex]`. -/
def decimalBranch (R : Rendering) (messageIndex : Nat) (newAssertion : Method) : Method :=
  fun self arguments =>
    match convert R self.obj with
    | Except.error e => ⟨self, Except.error e⟩
    | Except.ok actual =>
      match convertAll R (arguments.take messageIndex) with
      | Except.error e => ⟨self, Except.error e⟩
      | Except.ok converted =>
        newAssertion self (concatValue ([actual] ++ converted) (argAt arguments messageIndex))

/-- The decimal branch of the property wrapper, the body under
`if (utils.flag(this, 'bignumber'))` in the source's `overwriteProperty`:
convert the subject and apply `newAssertion` to it. -/
def decimalPropertyBranch (R : Rendering) (newAssertion : Method) : Property :=
  fun self =>
    match convert R self.obj with
    | Except.error e => ⟨self, Except.error e⟩
    | Except.ok actual => newAssertion self [actual]

/-! ## Lemmas: the engine -/

theorem Big.pow_scale_pos (n : Nat) : (0 : ℚ) < (10 : ℚ) ^ n := by positivity

theorem Big.toRat_sub_eq (x y : Big) :
    x.toRat - y.toRat
      = ((x.mant * 10 ^ y.scale - y.mant * 10 ^ x.scale : Int) : ℚ)
          / ((10 : ℚ) ^ x.scale * (10 : ℚ) ^ y.scale) := by
  have hx := (Big.pow_scale_pos x.scale).ne.symm
  have hy := (Big.pow_scale_pos y.scale).ne.symm
  unfold Big.toRat
  push_cast
  field_simp
  ring

theorem Big.sign_cases (d : Int) :
    (d < 0 ∧ d.sign = -1) ∨ (d = 0 ∧ d.sign = 0) ∨ (0 < d ∧ d.sign = 1) := by
  rcases lt_trichotomy d 0 with h | h | h
  · exact Or.inl ⟨h, Int.sign_eq_neg_one_iff_neg.mpr h⟩
  · exact Or.inr (Or.inl ⟨h, Int.sign_eq_zero_iff_zero.mpr h⟩)
  · exact Or.inr (Or.inr ⟨h, Int.sign_eq_one_iff_pos.mpr h⟩)

theorem Big.cross_pos_iff (x y : Big) :
    0 < x.mant * 10 ^ y.scale - y.mant * 10 ^ x.scale ↔ y.toRat < x.toRat := by
  have hd : (0 : ℚ) < (10 : ℚ) ^ x.scale * (10 : ℚ) ^ y.scale :=
    mul_pos (Big.pow_scale_pos _) (Big.pow_scale_pos _)
  have h : y.toRat < x.toRat ↔ 0 < x.toRat - y.toRat := sub_pos.symm
  rw [h, Big.toRat_sub_eq, div_pos_iff_of_pos_right hd]
  exact Int.cast_pos.symm

theorem Big.cross_neg_iff (x y : Big) :
    x.mant * 10 ^ y.scale - y.mant * 10 ^ x.scale < 0 ↔ x.toRat < y.toRat := by
  rw [← Big.cross_pos_iff y x]
  constructor <;> intro h <;> linarith

theorem Big.gt_iff (x y : Big) : Big.gt x y = true ↔ y.toRat < x.toRat := by
  simp only [Big.gt, Big.cmp, decide_eq_true_eq, gt_iff_lt]
  rw [← Big.cross_pos_iff]
  constructor
  · intro h
    exact Int.sign_eq_one_iff_pos.mp (by
      rcases Big.sign_cases (x.mant * 10 ^ y.scale - y.mant * 10 ^ x.scale) with h1 | h1 | h1
        <;> omega)
  · intro h
    rw [Int.sign_eq_one_iff_pos.mpr h]
    decide

theorem Big.lt_iff (x y : Big) : Big.lt x y = true ↔ x.toRat < y.toRat := by
  simp only [Big.lt, Big.cmp, decide_eq_true_eq]
  rw [← Big.cross_neg_iff]
  constructor
  · intro h
    exact Int.sign_eq_neg_one_iff_neg.mp (by
      rcases Big.sign_cases (x.mant * 10 ^ y.scale - y.mant * 10 ^ x.scale) with h1 | h1 | h1
        <;> omega)
  · intro h
    rw [Int.sign_eq_neg_one_iff_neg.mpr h]
    decide

theorem Big.gte_iff (x y : Big) : Big.gte x y = true ↔ y.toRat ≤ x.toRat := by
  rw [← not_lt, ← Big.lt_iff]
  simp only [Big.gte, Big.lt, decide_eq_true_eq]
  omega

theorem Big.lte_iff (x y : Big) : Big.lte x y = true ↔ x.toRat ≤ y.toRat := by
  rw [← not_lt, ← Big.gt_iff]
  simp only [Big.lte, Big.gt, decide_eq_true_eq]
  omega

theorem Big.eq_iff (x y : Big) : Big.eq x y = true ↔ x.toRat = y.toRat := by
  have h1 := Big.lt_iff x y
  have h2 := Big.gt_iff x y
  simp only [Big.lt, Big.gt, Big.eq, decide_eq_true_eq] at *
  constructor
  · intro h
    apply le_antisymm
    · exact not_lt.mp (fun hh => by have := h2.mpr hh; omega)
    · exact not_lt.mp (fun hh => by have := h1.mpr hh; omega)
  · intro h
    have n1 : ¬ x.toRat < y.toRat := by rw [h]; exact lt_irrefl _
    have n2 : ¬ y.toRat < x.toRat := by rw [h]; exact lt_irrefl _
    rw [← h1] at n1
    rw [← h2] at n2
    rcases Big.sign_cases (x.mant * 10 ^ y.scale - y.mant * 10 ^ x.scale) with h3 | h3 | h3
      <;> simp only [Big.cmp] at * <;> omega

theorem Big.toRat_sub (x y : Big) : (Big.sub x y).toRat = x.toRat - y.toRat := by
  rw [Big.toRat_sub_eq]
  simp only [Big.sub, Big.toRat, pow_add]

theorem Big.toRat_add (x y : Big) : (Big.add x y).toRat = x.toRat + y.toRat := by
  have hx := (Big.pow_scale_pos x.scale).ne.symm
  have hy := (Big.pow_scale_pos y.scale).ne.symm
  simp only [Big.add, Big.toRat, pow_add]
  push_cast
  field_simp

theorem Big.toRat_zero : Big.zero.toRat = 0 := by
  simp [Big.zero, Big.toRat]

/-! ## Lemmas: text replacement and the invalid-operand message -/

theorem replaceAllAux_no_match (pat rep : List Char) (z : Char) (hz : z ∈ pat) :
    ∀ t : List Char, z ∉ t → replaceAllAux pat rep 0 t = t := by
  intro t
  induction t with
  | nil => intro _; rfl
  | cons c cs ih =>
    intro h
    have hp : ¬ pat <+: c :: cs := fun hp => h (hp.subset hz)
    have hcs : z ∉ cs := fun hh => h (List.mem_cons_of_mem _ hh)
    simp only [replaceAllAux, List.isPrefixOf_iff_prefix, hp, if_false, ih hcs]

theorem prefix_of_prefix_append (pat s tail : List Char) (z : Char)
    (hlast : pat.getLast? = some z) (hz : z ∉ tail) (h : pat <+: s ++ tail) : pat <+: s := by
  rcases List.prefix_or_prefix_of_prefix h (List.prefix_append s tail) with h1 | h1
  · exact h1
  · obtain ⟨r, hr⟩ := h1
    subst hr
    rw [List.prefix_append_right_inj] at h
    rcases List.eq_nil_or_concat r with hnil | ⟨r1, y, hy⟩
    · subst hnil
      simp
    · exfalso
      subst hy
      have hl : (s ++ r1.concat y).getLast? = some y := by simp
      rw [hl] at hlast
      have hyz : y = z := Option.some.inj hlast
      apply hz
      rw [← hyz]
      exact h.subset (by simp)

theorem replaceAllAux_append (pat rep tail : List Char) (z : Char)
    (hlast : pat.getLast? = some z) (hz : z ∉ tail) :
    ∀ (s : List Char) (k : Nat), k ≤ s.length →
      replaceAllAux pat rep k (s ++ tail) = replaceAllAux pat rep k s ++ tail := by
  have hmem : z ∈ pat := List.mem_of_getLast?_eq_some hlast
  intro s
  induction s with
  | nil =>
    intro k hk
    have hk0 : k = 0 := by simpa using hk
    subst hk0
    simp only [List.nil_append, replaceAllAux]
    exact replaceAllAux_no_match pat rep z hmem tail hz
  | cons c cs ih =>
    intro k hk
    cases k with
    | succ k =>
      have e1 : replaceAllAux pat rep (k + 1) (c :: cs ++ tail)
          = replaceAllAux pat rep k (cs ++ tail) := rfl
      have e2 : replaceAllAux pat rep (k + 1) (c :: cs) = replaceAllAux pat rep k cs := rfl
      rw [e1, e2]
      exact ih k (by simpa using hk)
    | zero =>
      have e1 : replaceAllAux pat rep 0 (c :: cs ++ tail)
          = if pat <+: c :: (cs ++ tail)
              then rep ++ replaceAllAux pat rep (pat.length - 1) (cs ++ tail)
              else c :: replaceAllAux pat rep 0 (cs ++ tail) := by
        rw [List.cons_append, replaceAllAux]
        simp only [List.isPrefixOf_iff_prefix]
      have e2 : replaceAllAux pat rep 0 (c :: cs)
          = if pat <+: c :: cs then rep ++ replaceAllAux pat rep (pat.length - 1) cs
              else c :: replaceAllAux pat rep 0 cs := by
        rw [replaceAllAux]
        simp only [List.isPrefixOf_iff_prefix]
      rw [e1, e2]
      by_cases hp : pat <+: c :: (cs ++ tail)
      · have hp2 : pat <+: c :: cs :=
          prefix_of_prefix_append pat (c :: cs) tail z hlast hz (by simpa using hp)
        have hlen : pat.length - 1 ≤ cs.length := by
          have := hp2.length_le
          simp only [List.length_cons] at this
          omega
        rw [if_pos hp, if_pos hp2, ih _ hlen, List.append_assoc]
      · have hp2 : ¬ pat <+: c :: cs := fun hh =>
          hp (by simpa using hh.trans (List.prefix_append (c :: cs) tail))
        rw [if_neg hp, if_neg hp2, ih 0 (Nat.zero_le _), List.cons_append]

theorem replaceAll_append (pat rep s tail : String) (z : Char)
    (hlast : pat.data.getLast? = some z) (hz : z ∉ tail.data) :
    replaceAll pat rep (s ++ tail) = replaceAll pat rep s ++ tail := by
  apply String.ext
  simp only [replaceAll, String.data_append]
  exact replaceAllAux_append pat.data rep.data tail.data z hlast hz s.data 0 (Nat.zero_le _)

/-- The text every invalid-operand message ends with. -/
theorem invalidOperand_message (R : Rendering) (v : Value) :
    endsWith (getMessage R (Assertion.fresh v) invalidOperandTemplate "" Value.undefined v)
      " to be an instance of Big or string" := by
  have h1 : replaceAll "#{act}" (R.objDisplay v)
      (replaceAll "#{this}" (R.objDisplay v) invalidOperandTemplate)
      = ("expected " ++ R.objDisplay v) ++ " to be an instance of Big or string" := rfl
  refine ⟨replaceAll "#{exp}" (R.objDisplay Value.undefined) ("expected " ++ R.objDisplay v), ?_⟩
  simp only [getMessage, substitute, Assertion.fresh, Value.truthy, Bool.false_eq_true,
    if_false]
  rw [h1]
  exact replaceAll_append _ _ _ _ (Char.ofNat 125) (by decide) (by decide)

/-! ## Lemmas: the registrations -/

theorem plugin_methods (R : Rendering) (A : Registry) (p : String × Method)
    (hp : p ∈ comparisonMethods R) :
    (plugin R A).methods p.1 = overwriteMethod R 1 p.2 (A.methods p.1) := by
  simp only [comparisonMethods, List.mem_cons, List.mem_singleton, List.not_mem_nil,
    or_false] at hp
  rcases hp with h | h | h | h | h | h | h | h | h | h | h | h | h <;> subst h <;>
    simp [plugin, overwriteMethods, overwriteProperties, Registry.overwriteMethod,
      Registry.overwriteProperty, Registry.addProperty]

theorem plugin_closeTo (R : Rendering) (A : Registry) :
    (plugin R A).methods "closeTo" = overwriteMethod R 2 (closeToRule R) (A.methods "closeTo") := by
  simp [plugin, overwriteMethods, overwriteProperties, Registry.overwriteMethod,
    Registry.overwriteProperty, Registry.addProperty]

theorem plugin_negative (R : Rendering) (A : Registry) :
    (plugin R A).properties "negative"
      = overwriteProperty R (negativeRule R) (A.properties "negative") := by
  simp [plugin, overwriteMethods, overwriteProperties, Registry.overwriteMethod,
    Registry.overwriteProperty, Registry.addProperty]

theorem plugin_zero (R : Rendering) (A : Registry) :
    (plugin R A).properties "zero" = overwriteProperty R (zeroRule R) (A.properties "zero") := by
  simp [plugin, overwriteMethods, overwriteProperties, Registry.overwriteMethod,
    Registry.overwriteProperty, Registry.addProperty]

/-! ## Lemmas: conversion and the rules on valid operands -/

theorem convert_decimal (R : Rendering) (v : Value) (a : Big) (h : v.decimal = some a) :
    ∃ w, convert R v = Except.ok w ∧ w.holds a := by
  cases v with
  | big b =>
    have hb : b = a := by simpa [Value.decimal] using h
    subst hb
    exact ⟨Value.big b, by simp [convert, isBig], Or.inl rfl⟩
  | foreignBig b =>
    have hb : b = a := by simpa [Value.decimal] using h
    subst hb
    exact ⟨Value.foreignBig b, by simp [convert, isBig, Value.truthy, Value.constructorName],
      Or.inr rfl⟩
  | string s =>
    have hs : Big.ofString s = some a := by simpa [Value.decimal] using h
    refine ⟨Value.big a, ?_, Or.inl rfl⟩
    simp [convert, isBig, Value.constructorName, construct, hs, Except.map]
  | undefined => simp [Value.decimal] at h
  | null => simp [Value.decimal] at h
  | bool b => simp [Value.decimal] at h
  | number n => simp [Value.decimal] at h
  | array xs => simp [Value.decimal] at h
  | object n => simp [Value.decimal] at h

theorem Value.holds.receiver {w : Value} {a : Big} (h : w.holds a) :
    receiver w = Except.ok a := by
  rcases h with h | h <;> subst h <;> rfl

theorem Value.holds.operand {w : Value} {a : Big} (h : w.holds a) :
    operand w = Except.ok a := by
  rcases h with h | h <;> subst h <;> rfl

theorem Value.holds.callToString {w : Value} {a : Big} (R : Rendering) (h : w.holds a) :
    callToString R w = Except.ok (R.bigToString a) := by
  rcases h with h | h <;> subst h <;> rfl

theorem Value.holds.toText {w : Value} {a : Big} (R : Rendering) (h : w.holds a) :
    R.toText w = R.bigToString a := by
  rcases h with h | h <;> subst h <;> rfl

theorem callCompare_holds (op : Big → Big → Bool) {w v : Value} {a b : Big}
    (hw : w.holds a) (hv : v.holds b) : callCompare op w v = Except.ok (op a b) := by
  simp only [callCompare, hw.receiver, hv.operand]
  rfl

theorem callArith_holds (op : Big → Big → Big) {w v : Value} {a b : Big}
    (hw : w.holds a) (hv : v.holds b) :
    ∃ r, callArith op w v = Except.ok r ∧ r.holds (op a b) := by
  rcases hw with h | h <;> subst h
  · exact ⟨Value.big (op a b), by simp only [callArith, receiver, hv.operand]; rfl, Or.inl rfl⟩
  · exact ⟨Value.foreignBig (op a b), by simp only [callArith, receiver, hv.operand]; rfl,
      Or.inr rfl⟩

theorem argAt_concat_zero (x y m : Value) (zs : List Value) :
    argAt (concatValue (x :: y :: zs) m) 0 = x := by
  cases m <;> rfl

theorem argAt_concat_one (x y m : Value) (zs : List Value) :
    argAt (concatValue (x :: y :: zs) m) 1 = y := by
  cases m <;> rfl

theorem argAt_concat_two (x y m : Value) : argAt (concatValue [x, y] m) 2 = spreadHead m := by
  cases m <;> rfl

theorem argAt_concat_two_of_three (x y z m : Value) :
    argAt (concatValue [x, y, z] m) 2 = z := by
  cases m <;> rfl

theorem argAt_concat_three (x y z m : Value) :
    argAt (concatValue [x, y, z] m) 3 = spreadHead m := by
  cases m <;> rfl

theorem setMessage_negate (self : Assertion) (m : Value) :
    (setMessage self m).negate = self.negate := by
  unfold setMessage
  split <;> rfl

theorem setMessage_obj (self : Assertion) (m : Value) :
    (setMessage self m).obj = self.obj := by
  unfold setMessage
  split <;> rfl

/-- A call of an overwritten method with message index 1 on a flagged chain
whose subject and first argument convert. -/
theorem overwriteMethod_one (R : Rendering) (newAssertion original : Method)
    (self : Assertion) (vb : Value) (rest : List Value) (wa wb : Value)
    (hflag : self.bignumber = true) (ha : convert R self.obj = Except.ok wa)
    (hb : convert R vb = Except.ok wb) :
    overwriteMethod R 1 newAssertion original self (vb :: rest)
      = newAssertion self (concatValue [wa, wb] (argAt (vb :: rest) 1)) := by
  simp [overwriteMethod, hflag, ha, convertAll, hb]

/-- A call of an overwritten method with message index 2 on a flagged chain
whose subject and first two arguments convert. -/
theorem overwriteMethod_two (R : Rendering) (newAssertion original : Method)
    (self : Assertion) (vb vd : Value) (rest : List Value) (wa wb wd : Value)
    (hflag : self.bignumber = true) (ha : convert R self.obj = Except.ok wa)
    (hb : convert R vb = Except.ok wb) (hd : convert R vd = Except.ok wd) :
    overwriteMethod R 2 newAssertion original self (vb :: vd :: rest)
      = newAssertion self (concatValue [wa, wb, wd] (argAt (vb :: vd :: rest) 2)) := by
  simp [overwriteMethod, hflag, ha, convertAll, hb, hd]

/-- The result of an equality or order rule on converted operands: the chain's
`assert` on the engine's verdict, with the texts of the two decimals. -/
theorem compareRule_result (R : Rendering) (pred : Value → Value → Except Failure Bool)
    (msg negateMsg : String) (self : Assertion) (args : List Value) (wa wb : Value)
    (a b : Big) (e : Bool) (h0 : argAt args 0 = wa) (h1 : argAt args 1 = wb)
    (ha : wa.holds a) (hb : wb.holds b) (hpred : pred wa wb = Except.ok e) :
    compareRule R pred msg negateMsg self args
      = ⟨setMessage self (argAt args 2),
          (setMessage self (argAt args 2)).assert R e msg negateMsg
            (Value.string (R.bigToString b)) (some (Value.string (R.bigToString a)))⟩ := by
  simp only [compareRule, h0, h1, hpred, ha.callToString R, hb.callToString R]
  rfl

theorem overwrite_compare (R : Rendering) (original : Method)
    (pred : Value → Value → Except Failure Bool) (msg negateMsg : String)
    (self : Assertion) (vb : Value) (rest : List Value) (a b : Big) (e : Bool)
    (hflag : self.bignumber = true) (ha : self.obj.decimal = some a)
    (hb : vb.decimal = some b)
    (hpred : ∀ wa wb : Value, wa.holds a → wb.holds b → pred wa wb = Except.ok e) :
    overwriteMethod R 1 (compareRule R pred msg negateMsg) original self (vb :: rest)
      = ⟨setMessage self (spreadHead (argAt (vb :: rest) 1)),
          (setMessage self (spreadHead (argAt (vb :: rest) 1))).assert R e msg negateMsg
            (Value.string (R.bigToString b)) (some (Value.string (R.bigToString a)))⟩ := by
  obtain ⟨wa, hca, hwa⟩ := convert_decimal R self.obj a ha
  obtain ⟨wb, hcb, hwb⟩ := convert_decimal R vb b hb
  rw [overwriteMethod_one R _ original self vb rest wa wb hflag hca hcb,
    compareRule_result R pred msg negateMsg self _ wa wb a b e
      (argAt_concat_zero _ _ _ _) (argAt_concat_one _ _ _ _) hwa hwb (hpred wa wb hwa hwb),
    argAt_concat_two]

/-- Every equality and order method, called on a flagged chain with valid
operands, is the chain's `assert` on the engine's verdict of the table. -/
theorem comparison_call (R : Rendering) (A : Registry)
    (n : String) (op : Big → Big → Bool) (msg negateMsg : String)
    (hn : (n, op, msg, negateMsg) ∈ comparisonTable)
    (c : Assertion) (vb : Value) (rest : List Value) (a b : Big)
    (hflag : c.bignumber = true) (ha : c.obj.decimal = some a) (hb : vb.decimal = some b) :
    (plugin R A).methods n c (vb :: rest)
      = ⟨setMessage c (spreadHead (argAt (vb :: rest) 1)),
          (setMessage c (spreadHead (argAt (vb :: rest) 1))).assert R (op a b) msg negateMsg
            (Value.string (R.bigToString b)) (some (Value.string (R.bigToString a)))⟩ := by
  simp only [comparisonTable, List.mem_cons, List.mem_singleton, List.not_mem_nil, or_false,
    Prod.mk.injEq] at hn
  rcases hn with h | h | h | h | h | h | h | h | h | h | h | h | h <;>
    obtain ⟨h1, h2, h3, h4⟩ := h <;> subst h1 h2 h3 h4
  · rw [plugin_methods R A ("equal", equalRule R) (by simp [comparisonMethods])]
    exact overwrite_compare R _ _ _ _ c vb rest a b _ hflag ha hb
      (fun wa wb hwa hwb => callCompare_holds Big.eq hwb hwa)
  · rw [plugin_methods R A ("equals", equalRule R) (by simp [comparisonMethods])]
    exact overwrite_compare R _ _ _ _ c vb rest a b _ hflag ha hb
      (fun wa wb hwa hwb => callCompare_holds Big.eq hwb hwa)
  · rw [plugin_methods R A ("eq", equalRule R) (by simp [comparisonMethods])]
    exact overwrite_compare R _ _ _ _ c vb rest a b _ hflag ha hb
      (fun wa wb hwa hwb => callCompare_holds Big.eq hwb hwa)
  · rw [plugin_methods R A ("above", aboveRule R) (by simp [comparisonMethods])]
    exact overwrite_compare R _ _ _ _ c vb rest a b _ hflag ha hb
      (fun wa wb hwa hwb => callCompare_holds Big.gt hwa hwb)
  · rw [plugin_methods R A ("gt", aboveRule R) (by simp [comparisonMethods])]
    exact overwrite_compare R _ _ _ _ c vb rest a b _ hflag ha hb
      (fun wa wb hwa hwb => callCompare_holds Big.gt hwa hwb)
  · rw [plugin_methods R A ("greaterThan", aboveRule R) (by simp [comparisonMethods])]
    exact overwrite_compare R _ _ _ _ c vb rest a b _ hflag ha hb
      (fun wa wb hwa hwb => callCompare_holds Big.gt hwa hwb)
  · rw [plugin_methods R A ("least", leastRule R) (by simp [comparisonMethods])]
    exact overwrite_compare R _ _ _ _ c vb rest a b _ hflag ha hb
      (fun wa wb hwa hwb => callCompare_holds Big.gte hwa hwb)
  · rw [plugin_methods R A ("gte", leastRule R) (by simp [comparisonMethods])]
    exact overwrite_compare R _ _ _ _ c vb rest a b _ hflag ha hb
      (fun wa wb hwa hwb => callCompare_holds Big.gte hwa hwb)
  · rw [plugin_methods R A ("below", belowRule R) (by simp [comparisonMethods])]
    exact overwrite_compare R _ _ _ _ c vb rest a b _ hflag ha hb
      (fun wa wb hwa hwb => callCompare_holds Big.lt hwa hwb)
  · rw [plugin_methods R A ("lt", belowRule R) (by simp [comparisonMethods])]
    exact overwrite_compare R _ _ _ _ c vb rest a b _ hflag ha hb
      (fun wa wb hwa hwb => callCompare_holds Big.lt hwa hwb)
  · rw [plugin_methods R A ("lessThan", belowRule R) (by simp [comparisonMethods])]
    exact overwrite_compare R _ _ _ _ c vb rest a b _ hflag ha hb
      (fun wa wb hwa hwb => callCompare_holds Big.lt hwa hwb)
  · rw [plugin_methods R A ("most", mostRule R) (by simp [comparisonMethods])]
    exact overwrite_compare R _ _ _ _ c vb rest a b _ hflag ha hb
      (fun wa wb hwa hwb => callCompare_holds Big.lte hwa hwb)
  · rw [plugin_methods R A ("lte", mostRule R) (by simp [comparisonMethods])]
    exact overwrite_compare R _ _ _ _ c vb rest a b _ hflag ha hb
      (fun wa wb hwa hwb => callCompare_holds Big.lte hwa hwb)

theorem assert_passes_iff (R : Rendering) (self : Assertion) (e : Bool)
    (msg negateMsg : String) (expected : Value) (actual : Option Value) :
    self.assert R e msg negateMsg expected actual = Except.ok ()
      ↔ (if self.negate then !e else e) = true := by
  unfold Assertion.assert
  split <;> simp_all

theorem assert_of_false (R : Rendering) (self : Assertion) (e : Bool)
    (msg negateMsg : String) (expected : Value) (actual : Option Value)
    (h : (if self.negate then !e else e) = false) :
    self.assert R e msg negateMsg expected actual
      = Except.error (Failure.assertion
          (getMessage R self msg negateMsg expected (actual.getD self.obj))
          (actual.getD self.obj) expected) := by
  unfold Assertion.assert
  simp [h]

theorem assert_fails_iff (R : Rendering) (self : Assertion) (e : Bool)
    (msg negateMsg : String) (expected : Value) (actual : Option Value) :
    (∃ m a x, self.assert R e msg negateMsg expected actual
        = Except.error (Failure.assertion m a x))
      ↔ (if self.negate then !e else e) = false := by
  unfold Assertion.assert
  cases self.negate <;> cases e <;> simp

theorem comparison_passes_iff (R : Rendering) (A : Registry)
    (n : String) (op : Big → Big → Bool) (msg negateMsg : String)
    (hn : (n, op, msg, negateMsg) ∈ comparisonTable)
    (c : Assertion) (vb : Value) (rest : List Value) (a b : Big)
    (hflag : c.bignumber = true) (ha : c.obj.decimal = some a) (hb : vb.decimal = some b) :
    ((plugin R A).methods n c (vb :: rest)).passes
      ↔ (if c.negate then !op a b else op a b) = true := by
  rw [comparison_call R A n op msg negateMsg hn c vb rest a b hflag ha hb]
  simp only [Outcome.passes, assert_passes_iff, setMessage_negate]

theorem equal_mem_table (n : String) (hn : n ∈ ["equal", "equals", "eq"]) :
    (n, (fun a b => Big.eq b a), "expected #{act} to equal #{exp}",
      "expected #{act} to be different from #{exp}") ∈ comparisonTable := by
  simp only [List.mem_cons, List.mem_singleton, List.not_mem_nil, or_false] at hn
  rcases hn with h | h | h <;> subst h <;> simp [comparisonTable]

theorem above_mem_table (n : String) (hn : n ∈ ["above", "gt", "greaterThan"]) :
    (n, (fun a b => Big.gt a b), "expected #{act} to be greater than #{exp}",
      "expected #{act} to be less than or equal to #{exp}") ∈ comparisonTable := by
  simp only [List.mem_cons, List.mem_singleton, List.not_mem_nil, or_false] at hn
  rcases hn with h | h | h <;> subst h <;> simp [comparisonTable]

theorem least_mem_table (n : String) (hn : n ∈ ["least", "gte"]) :
    (n, (fun a b => Big.gte a b), "expected #{act} to be greater than or equal to #{exp}",
      "expected #{act} to be less than #{exp}") ∈ comparisonTable := by
  simp only [List.mem_cons, List.mem_singleton, List.not_mem_nil, or_false] at hn
  rcases hn with h | h <;> subst h <;> simp [comparisonTable]

theorem below_mem_table (n : String) (hn : n ∈ ["below", "lt", "lessThan"]) :
    (n, (fun a b => Big.lt a b), "expected #{act} to be less than #{exp}",
      "expected #{act} to be greater than or equal to #{exp}") ∈ comparisonTable := by
  simp only [List.mem_cons, List.mem_singleton, List.not_mem_nil, or_false] at hn
  rcases hn with h | h | h <;> subst h <;> simp [comparisonTable]

theorem most_mem_table (n : String) (hn : n ∈ ["most", "lte"]) :
    (n, (fun a b => Big.lte a b), "expected #{act} to be less than or equal to #{exp}",
      "expected #{act} to be greater than #{exp}") ∈ comparisonTable := by
  simp only [List.mem_cons, List.mem_singleton, List.not_mem_nil, or_false] at hn
  rcases hn with h | h <;> subst h <;> simp [comparisonTable]

theorem closeToPredicate_holds {wa wb wd : Value} {a b d : Big}
    (ha : wa.holds a) (hb : wb.holds b) (hd : wd.holds d) :
    closeToPredicate wa wb wd
      = Except.ok (Big.gte a (Big.sub b d) && Big.lte a (Big.add b d)) := by
  obtain ⟨lo, hlo, hlo2⟩ := callArith_holds Big.sub hb hd
  obtain ⟨hi, hhi, hhi2⟩ := callArith_holds Big.add hb hd
  simp only [closeToPredicate, hlo, hhi, isGreaterThanOrEqualTo, isLessThanOrEqualTo, bind,
    Except.bind, callCompare_holds Big.gte ha hlo2, callCompare_holds Big.lte ha hhi2]
  cases Big.gte a (Big.sub b d) <;> rfl

/-- The method `closeTo`, called on a flagged chain with valid operands, is the
chain's `assert` on the engine's verdict. -/
theorem closeTo_call (R : Rendering) (A : Registry) (c : Assertion) (vb vd : Value)
    (rest : List Value) (a b d : Big)
    (hflag : c.bignumber = true) (ha : c.obj.decimal = some a) (hb : vb.decimal = some b)
    (hd : vd.decimal = some d) :
    (plugin R A).methods "closeTo" c (vb :: vd :: rest)
      = ⟨setMessage c (spreadHead (argAt (vb :: vd :: rest) 2)),
          (setMessage c (spreadHead (argAt (vb :: vd :: rest) 2))).assert R
            (Big.gte a (Big.sub b d) && Big.lte a (Big.add b d))
            ("expected #{act} to be within '" ++ R.bigToString d ++ "' of #{exp}")
            ("expected #{act} to be further than '" ++ R.bigToString d ++ "' from #{exp}")
            (Value.string (R.bigToString b)) (some (Value.string (R.bigToString a)))⟩ := by
  obtain ⟨wa, hca, hwa⟩ := convert_decimal R c.obj a ha
  obtain ⟨wb, hcb, hwb⟩ := convert_decimal R vb b hb
  obtain ⟨wd, hcd, hwd⟩ := convert_decimal R vd d hd
  rw [plugin_closeTo, overwriteMethod_two R _ _ c vb vd rest wa wb wd hflag hca hcb hcd]
  simp only [closeToRule, argAt_concat_zero, argAt_concat_one, argAt_concat_two_of_three,
    argAt_concat_three, closeToPredicate_holds hwa hwb hwd, hwa.callToString R,
    hwb.callToString R, hwd.toText R]
  rfl

/-- The property `negative`, read on a flagged chain with a valid subject, is
the chain's `assert` on the engine's verdict. -/
theorem negative_call (R : Rendering) (A : Registry) (c : Assertion) (a : Big)
    (hflag : c.bignumber = true) (ha : c.obj.decimal = some a) :
    (plugin R A).properties "negative" c
      = ⟨c, c.assert R (Big.lt a Big.zero) "expected #{this} to be negative"
          "expected #{this} to not be negative" (Value.string (R.bigToString a)) none⟩ := by
  obtain ⟨wa, hca, hwa⟩ := convert_decimal R c.obj a ha
  rw [plugin_negative]
  simp only [overwriteProperty, hflag, if_true, hca, negativeRule, argAt, List.getD_cons_zero,
    isLessThan, callCompare_holds Big.lt hwa (Or.inl rfl), hwa.callToString R]
  rfl

/-- The property `zero`, read on a flagged chain with a valid subject, is the
chain's `assert` on the engine's verdict. -/
theorem zero_call (R : Rendering) (A : Registry) (c : Assertion) (a : Big)
    (hflag : c.bignumber = true) (ha : c.obj.decimal = some a) :
    (plugin R A).properties "zero" c
      = ⟨c, c.assert R (Big.eq a Big.zero) "expected #{this} to be zero"
          "expected #{this} to not be zero" (Value.string (R.bigToString a)) none⟩ := by
  obtain ⟨wa, hca, hwa⟩ := convert_decimal R c.obj a ha
  rw [plugin_zero]
  simp only [overwriteProperty, hflag, if_true, hca, zeroRule, argAt, List.getD_cons_zero,
    isEqualTo, callCompare_holds Big.eq hwa (Or.inl rfl), hwa.callToString R]
  rfl

theorem closeTo_verdict_iff (a b d : Big) :
    (Big.gte a (Big.sub b d) && Big.lte a (Big.add b d)) = true
      ↔ |a.toRat - b.toRat| ≤ d.toRat := by
  rw [Bool.and_eq_true, Big.gte_iff, Big.lte_iff, Big.toRat_sub, Big.toRat_add, abs_le]
  constructor
  · rintro ⟨h1, h2⟩
    constructor <;> linarith
  · rintro ⟨h1, h2⟩
    constructor <;> linarith

theorem assert_exactly_one (R : Rendering) (s1 s2 : Assertion) (e : Bool)
    (m1 n1 m2 n2 : String) (x1 x2 : Value) (a1 a2 : Option Value)
    (h : s2.negate = !s1.negate) :
    exactlyOnePasses ⟨s1, s1.assert R e m1 n1 x1 a1⟩ ⟨s2, s2.assert R e m2 n2 x2 a2⟩ := by
  unfold exactlyOnePasses Outcome.passes Outcome.fails Assertion.assert
  cases hs : s1.negate <;> cases e <;> simp [h, hs]

theorem methods_of_name (R : Rendering) (n : String) (hn : n ∈ aliasGroups.flatten) :
    ∃ rule, (n, rule) ∈ comparisonMethods R := by
  simp only [aliasGroups, List.flatten, List.append_nil, List.cons_append, List.nil_append,
    List.mem_cons, List.mem_singleton, List.not_mem_nil, or_false] at hn
  rcases hn with h | h | h | h | h | h | h | h | h | h | h | h | h <;> subst h
  · exact ⟨equalRule R, by simp [comparisonMethods]⟩
  · exact ⟨equalRule R, by simp [comparisonMethods]⟩
  · exact ⟨equalRule R, by simp [comparisonMethods]⟩
  · exact ⟨aboveRule R, by simp [comparisonMethods]⟩
  · exact ⟨aboveRule R, by simp [comparisonMethods]⟩
  · exact ⟨aboveRule R, by simp [comparisonMethods]⟩
  · exact ⟨leastRule R, by simp [comparisonMethods]⟩
  · exact ⟨leastRule R, by simp [comparisonMethods]⟩
  · exact ⟨belowRule R, by simp [comparisonMethods]⟩
  · exact ⟨belowRule R, by simp [comparisonMethods]⟩
  · exact ⟨belowRule R, by simp [comparisonMethods]⟩
  · exact ⟨mostRule R, by simp [comparisonMethods]⟩
  · exact ⟨mostRule R, by simp [comparisonMethods]⟩

theorem table_of_name (n : String) (hn : n ∈ aliasGroups.flatten) :
    ∃ op msg negateMsg, (n, op, msg, negateMsg) ∈ comparisonTable := by
  simp only [aliasGroups, List.flatten, List.append_nil, List.cons_append, List.nil_append,
    List.mem_cons, List.mem_singleton, List.not_mem_nil, or_false] at hn
  rcases hn with h | h | h | h | h | h | h | h | h | h | h | h | h <;> subst h
  · exact ⟨_, _, _, equal_mem_table _ (by simp)⟩
  · exact ⟨_, _, _, equal_mem_table _ (by simp)⟩
  · exact ⟨_, _, _, equal_mem_table _ (by simp)⟩
  · exact ⟨_, _, _, above_mem_table _ (by simp)⟩
  · exact ⟨_, _, _, above_mem_table _ (by simp)⟩
  · exact ⟨_, _, _, above_mem_table _ (by simp)⟩
  · exact ⟨_, _, _, least_mem_table _ (by simp)⟩
  · exact ⟨_, _, _, least_mem_table _ (by simp)⟩
  · exact ⟨_, _, _, below_mem_table _ (by simp)⟩
  · exact ⟨_, _, _, below_mem_table _ (by simp)⟩
  · exact ⟨_, _, _, below_mem_table _ (by simp)⟩
  · exact ⟨_, _, _, most_mem_table _ (by simp)⟩
  · exact ⟨_, _, _, most_mem_table _ (by simp)⟩

theorem group_rule (R : Rendering) (g : List String) (hg : g ∈ aliasGroups) :
    ∃ rule, ∀ n ∈ g, (n, rule) ∈ comparisonMethods R := by
  simp only [aliasGroups, List.mem_cons, List.mem_singleton, List.not_mem_nil, or_false] at hg
  rcases hg with h | h | h | h | h <;> subst h
  · exact ⟨equalRule R, by simp [comparisonMethods]⟩
  · exact ⟨aboveRule R, by simp [comparisonMethods]⟩
  · exact ⟨leastRule R, by simp [comparisonMethods]⟩
  · exact ⟨belowRule R, by simp [comparisonMethods]⟩
  · exact ⟨mostRule R, by simp [comparisonMethods]⟩

theorem overwriteMethod_flagged (R : Rendering) (i : Nat) (rule f g : Method) (c : Assertion)
    (args : List Value) (hflag : c.bignumber = true) :
    overwriteMethod R i rule f c args = overwriteMethod R i rule g c args := by
  simp only [overwriteMethod, hflag, if_true]

/-- The templates of the table have no `#{this}`: the subject's display does
not enter the message. -/
theorem substitute_subject (R : Rendering) (n : String) (op : Big → Big → Bool)
    (msg negateMsg : String) (hn : (n, op, msg, negateMsg) ∈ comparisonTable)
    (s1 s2 act exp : Value) :
    substitute R s1 act exp msg = substitute R s2 act exp msg
    ∧ substitute R s1 act exp negateMsg = substitute R s2 act exp negateMsg := by
  simp only [comparisonTable, List.mem_cons, List.mem_singleton, List.not_mem_nil, or_false,
    Prod.mk.injEq] at hn
  rcases hn with h | h | h | h | h | h | h | h | h | h | h | h | h <;>
    obtain ⟨_, _, h3, h4⟩ := h <;> subst h3 h4 <;> exact ⟨rfl, rfl⟩

theorem assert_subject (R : Rendering) (s1 s2 : Assertion) (e : Bool) (msg negateMsg : String)
    (x a : Value) (hn : s1.negate = s2.negate) (hm : s1.message = s2.message)
    (h : substitute R s1.obj a x msg = substitute R s2.obj a x msg
      ∧ substitute R s1.obj a x negateMsg = substitute R s2.obj a x negateMsg) :
    s1.assert R e msg negateMsg x (some a) = s2.assert R e msg negateMsg x (some a) := by
  simp only [Assertion.assert, getMessage, Option.getD_some, hn, hm]
  cases s2.negate <;> simp [h.1, h.2]

theorem setMessage_message_obj (c : Assertion) (v m : Value) :
    (setMessage { c with obj := v } m).message = (setMessage c m).message := by
  unfold setMessage
  split <;> rfl

theorem convert_invalid (R : Rendering) (v : Value) (hbig : isBig v = false)
    (hstr : v.isString = false) :
    convert R v = Except.error (Failure.assertion
      (getMessage R (Assertion.fresh v) invalidOperandTemplate "" Value.undefined v)
      v Value.undefined) := by
  cases v <;> first
    | (simp [Value.isString] at hstr; done)
    | (simp only [convert, hbig, Bool.false_eq_true, if_false]; rfl)

theorem invalidOperand_of_result (R : Rendering) (o : Outcome) (v : Value)
    (h : o.result = Except.error (Failure.assertion
      (getMessage R (Assertion.fresh v) invalidOperandTemplate "" Value.undefined v)
      v Value.undefined)) : o.invalidOperand v :=
  ⟨_, h, invalidOperand_message R v⟩

theorem overwriteMethod_subject_invalid (R : Rendering) (i : Nat) (rule original : Method)
    (c : Assertion) (args : List Value) (hflag : c.bignumber = true)
    (hbig : isBig c.obj = false) (hstr : c.obj.isString = false) :
    (overwriteMethod R i rule original c args).invalidOperand c.obj := by
  apply invalidOperand_of_result R
  simp only [overwriteMethod, hflag, if_true, convert_invalid R c.obj hbig hstr]

theorem overwriteMethod_first_invalid (R : Rendering) (i : Nat) (rule original : Method)
    (c : Assertion) (wa v : Value) (rest : List Value) (hflag : c.bignumber = true)
    (ha : convert R c.obj = Except.ok wa)
    (hbig : isBig v = false) (hstr : v.isString = false) :
    (overwriteMethod R (i + 1) rule original c (v :: rest)).invalidOperand v := by
  apply invalidOperand_of_result R
  simp only [overwriteMethod, hflag, if_true, ha, List.take_succ_cons, convertAll,
    convert_invalid R v hbig hstr]

theorem overwriteProperty_subject_invalid (R : Rendering) (rule : Method) (original : Property)
    (c : Assertion) (hflag : c.bignumber = true)
    (hbig : isBig c.obj = false) (hstr : c.obj.isString = false) :
    (overwriteProperty R rule original c).invalidOperand c.obj := by
  apply invalidOperand_of_result R
  simp only [overwriteProperty, hflag, if_true, convert_invalid R c.obj hbig hstr]

theorem method_wrapper (R : Rendering) (A : Registry) (n : String)
    (hn : n ∈ aliasGroups.flatten ++ ["closeTo"]) :
    ∃ i rule, (plugin R A).methods n = overwriteMethod R (i + 1) rule (A.methods n) := by
  rw [List.mem_append] at hn
  rcases hn with hn | hn
  · obtain ⟨rule, hr⟩ := methods_of_name R n hn
    exact ⟨0, rule, plugin_methods R A (n, rule) hr⟩
  · have h : n = "closeTo" := by simpa using hn
    subst h
    exact ⟨1, closeToRule R, plugin_closeTo R A⟩

theorem setMessage_text (c : Assertion) (m : String) (hm : m ≠ "") :
    setMessage c (Value.string m) = { c with message := Value.string m } := by
  simp [setMessage, Value.truthy, hm]

theorem setMessage_undefined (c : Assertion) : setMessage c Value.undefined = c := rfl

/-- What a failed `assert` throws on a chain that carries the message `m`. -/
theorem assert_with_message (R : Rendering) (c : Assertion) (m : String) (hm : m ≠ "")
    (e : Bool) (pos neg : String) (x a : Value)
    (h : ¬ ({ c with message := Value.string m } : Assertion).assert R e pos neg x (some a)
        = Except.ok ()) :
    ({ c with message := Value.string m } : Assertion).assert R e pos neg x (some a)
      = Except.error (Failure.assertion
          (m ++ ": " ++ substitute R c.obj a x (if c.negate then neg else pos)) a x) := by
  rw [assert_passes_iff, Bool.not_eq_true] at h
  rw [assert_of_false R _ e pos neg x (some a) h]
  simp [getMessage, Value.truthy, hm, Rendering.toText]

/-- What a failed `assert` throws on a chain that carries no message. -/
theorem assert_without_message (R : Rendering) (c : Assertion) (hc : c.message.truthy = false)
    (e : Bool) (pos neg : String) (x a : Value)
    (h : ¬ c.assert R e pos neg x (some a) = Except.ok ()) :
    c.assert R e pos neg x (some a)
      = Except.error (Failure.assertion
          (substitute R c.obj a x (if c.negate then neg else pos)) a x) := by
  rw [assert_passes_iff, Bool.not_eq_true] at h
  rw [assert_of_false R _ e pos neg x (some a) h]
  simp [getMessage, hc]

/-! ## Lemmas: conversion that fails -/

theorem convertAll_append_error (R : Rendering) (v : Value) (post : List Value) (e : Failure)
    (hv : convert R v = Except.error e) :
    ∀ (pre ws : List Value), convertAll R pre = Except.ok ws →
      convertAll R (pre ++ v :: post) = Except.error e := by
  intro pre
  induction pre with
  | nil =>
    intro ws _
    simp only [List.nil_append, convertAll, hv]
  | cons x xs ih =>
    intro ws h
    simp only [convertAll] at h
    cases hx : convert R x with
    | error e1 => simp [hx] at h
    | ok w =>
      cases hxs : convertAll R xs with
      | error e1 => simp [hx, hxs] at h
      | ok ws1 =>
        have e1 : convertAll R (x :: xs ++ v :: post)
            = match convert R x with
              | Except.error e => Except.error e
              | Except.ok w =>
                match convertAll R (xs ++ v :: post) with
                | Except.error e => Except.error e
                | Except.ok ws => Except.ok (w :: ws) := rfl
        rw [e1, hx, ih ws1 hxs]

/-- On a flagged chain, when the conversion of the subject and of the
arguments before the message index fails, the wrapper returns that failure
with the chain as it was, whatever the rule is. -/
theorem overwriteMethod_convert_error (R : Rendering) (i : Nat) (rule original : Method)
    (c : Assertion) (args : List Value) (e : Failure) (hflag : c.bignumber = true)
    (h : convertAll R (c.obj :: args.take i) = Except.error e) :
    overwriteMethod R i rule original c args = ⟨c, Except.error e⟩ := by
  simp only [convertAll] at h
  cases hx : convert R c.obj with
  | error e1 =>
    simp only [hx, Except.error.injEq] at h
    subst h
    simp only [overwriteMethod, hflag, if_true, hx]
  | ok w =>
    cases hxs : convertAll R (args.take i) with
    | error e1 =>
      simp only [hx, hxs, Except.error.injEq] at h
      subst h
      simp only [overwriteMethod, hflag, if_true, hx, hxs]
    | ok ws => simp [hx, hxs] at h

theorem overwriteProperty_convert_error (R : Rendering) (rule : Method) (original : Property)
    (c : Assertion) (e : Failure) (hflag : c.bignumber = true)
    (h : convert R c.obj = Except.error e) :
    overwriteProperty R rule original c = ⟨c, Except.error e⟩ := by
  simp only [overwriteProperty, hflag, if_true, h]

theorem plugin_bignumber (R : Rendering) (A : Registry) :
    (plugin R A).properties "bignumber" = bignumber := by
  simp [plugin, overwriteMethods, overwriteProperties, Registry.overwriteMethod,
    Registry.overwriteProperty, Registry.addProperty]

theorem concatValue_not_array (xs : List Value) (m : Value)
    (h : ∀ ys : List Value, m ≠ Value.array ys) : concatValue xs m = xs ++ [m] := by
  cases m with
  | array ys => exact absurd rfl (h ys)
  | _ => rfl

theorem convert_malformed (R : Rendering) (s : String) (e : Failure)
    (h : construct s = Except.error e) : convert R (Value.string s) = Except.error e := by
  simp [convert, isBig, Value.constructorName, h, Except.map]

theorem first_argument_error (R : Rendering) (i : Nat) (rule original : Method)
    (c : Assertion) (wa v : Value) (rest : List Value) (e : Failure)
    (hflag : c.bignumber = true) (ha : convert R c.obj = Except.ok wa)
    (hv : convert R v = Except.error e) :
    overwriteMethod R (i + 1) rule original c (v :: rest) = ⟨c, Except.error e⟩ := by
  simp only [overwriteMethod, hflag, if_true, ha, List.take_succ_cons, convertAll, hv]

theorem second_argument_error (R : Rendering) (i : Nat) (rule original : Method)
    (c : Assertion) (wa wb vb v : Value) (rest : List Value) (e : Failure)
    (hflag : c.bignumber = true) (ha : convert R c.obj = Except.ok wa)
    (hb : convert R vb = Except.ok wb) (hv : convert R v = Except.error e) :
    overwriteMethod R (i + 2) rule original c (vb :: v :: rest) = ⟨c, Except.error e⟩ := by
  simp only [overwriteMethod, hflag, if_true, ha, List.take_succ_cons, convertAll, hb, hv]

theorem subject_error (R : Rendering) (i : Nat) (rule original : Method)
    (c : Assertion) (args : List Value) (e : Failure)
    (hflag : c.bignumber = true) (hv : convert R c.obj = Except.error e) :
    overwriteMethod R i rule original c args = ⟨c, Except.error e⟩ := by
  simp only [overwriteMethod, hflag, if_true, hv]

theorem subject_invalid_result (R : Rendering) (i : Nat) (rule original : Method)
    (c : Assertion) (args : List Value) (hflag : c.bignumber = true)
    (hbig : isBig c.obj = false) (hstr : c.obj.isString = false) :
    (overwriteMethod R i rule original c args).result = Except.error (Failure.assertion
      (getMessage R (Assertion.fresh c.obj) invalidOperandTemplate "" Value.undefined c.obj)
      c.obj Value.undefined) := by
  rw [subject_error R i rule original c args _ hflag (convert_invalid R c.obj hbig hstr)]

theorem first_argument_invalid_result (R : Rendering) (i : Nat) (rule original : Method)
    (c : Assertion) (wa v : Value) (rest : List Value) (hflag : c.bignumber = true)
    (ha : convert R c.obj = Except.ok wa)
    (hbig : isBig v = false) (hstr : v.isString = false) :
    (overwriteMethod R (i + 1) rule original c (v :: rest)).result
      = Except.error (Failure.assertion
          (getMessage R (Assertion.fresh v) invalidOperandTemplate "" Value.undefined v)
          v Value.undefined) := by
  rw [first_argument_error R i rule original c wa v rest _ hflag ha
    (convert_invalid R v hbig hstr)]

theorem overwriteProperty_flagged (R : Rendering) (rule : Method) (f g : Property)
    (c : Assertion) (hflag : c.bignumber = true) :
    overwriteProperty R rule f c = overwriteProperty R rule g c := by
  simp only [overwriteProperty, hflag, if_true]

theorem convert_isBig (R : Rendering) (v : Value) (h : isBig v = true) :
    convert R v = Except.ok v := by
  simp only [convert, h, if_true]

theorem isBig_iff (v : Value) :
    isBig v = true
      ↔ ((∃ b : Big, v = Value.big b) ∨ (v.truthy = true ∧ v.constructorName = some "Big")) := by
  cases v <;> simp [isBig, Value.truthy, Value.constructorName]

theorem convertAll_length (R : Rendering) :
    ∀ (vs ws : List Value), convertAll R vs = Except.ok ws → ws.length = vs.length := by
  intro vs
  induction vs with
  | nil =>
    intro ws h
    simp only [convertAll, Except.ok.injEq] at h
    subst h
    rfl
  | cons x xs ih =>
    intro ws h
    simp only [convertAll] at h
    cases hx : convert R x with
    | error e1 => simp [hx] at h
    | ok w =>
      cases hxs : convertAll R xs with
      | error e1 => simp [hx, hxs] at h
      | ok ws1 =>
        simp only [hx, hxs, Except.ok.injEq] at h
        subst h
        simp only [List.length_cons, ih ws1 hxs]

/-- A call with fewer arguments than the message index: the rule is applied
to the converted subject, the converted arguments and one `undefined`. -/
theorem overwriteMethod_omitted (R : Rendering) (i : Nat) (rule original : Method)
    (c : Assertion) (args ws : List Value) (wa : Value) (hflag : c.bignumber = true)
    (hk : args.length < i) (ha : convert R c.obj = Except.ok wa)
    (hargs : convertAll R args = Except.ok ws) :
    overwriteMethod R i rule original c args = rule c (wa :: ws ++ [Value.undefined]) := by
  have h1 : args.take i = args := List.take_of_length_le (Nat.le_of_lt hk)
  have h2 : argAt args i = Value.undefined := by
    simp only [argAt, List.getD_eq_getElem?_getD, List.getElem?_eq_none (Nat.le_of_lt hk),
      Option.getD_none]
  simp only [overwriteMethod, hflag, if_true, ha, h1, hargs, h2]
  rfl

theorem argAt_beyond (xs : List Value) (j : Nat) (h : xs.length ≤ j) :
    argAt xs j = Value.undefined := by
  simp only [argAt, List.getD_eq_getElem?_getD, List.getElem?_eq_none h, Option.getD_none]

theorem argAt_after_converted (wa : Value) (ws : List Value) (j : Nat) (h : ws.length < j) :
    argAt (wa :: ws ++ [Value.undefined]) j = Value.undefined := by
  rcases Nat.lt_or_ge j (ws.length + 2) with h1 | h1
  · have hj : j = ws.length + 1 := by omega
    subst hj
    simp [argAt]
  · exact argAt_beyond _ j (by simp; omega)

theorem equal_method_form (R : Rendering) (A : Registry) (n : String)
    (hn : n ∈ ["equal", "equals", "eq"]) :
    (plugin R A).methods n = overwriteMethod R 1 (equalRule R) (A.methods n) := by
  simp only [List.mem_cons, List.mem_singleton, List.not_mem_nil, or_false] at hn
  rcases hn with h | h | h <;> subst h
  · exact plugin_methods R A ("equal", equalRule R) (by simp [comparisonMethods])
  · exact plugin_methods R A ("equals", equalRule R) (by simp [comparisonMethods])
  · exact plugin_methods R A ("eq", equalRule R) (by simp [comparisonMethods])

theorem order_method_form (R : Rendering) (A : Registry) (n : String)
    (hn : n ∈ ["above", "gt", "greaterThan", "least", "gte", "below", "lt", "lessThan",
      "most", "lte"]) :
    ∃ (op : Big → Big → Bool) (pos neg : String),
      (plugin R A).methods n
        = overwriteMethod R 1
            (compareRule R (fun actual expected => callCompare op actual expected) pos neg)
            (A.methods n) := by
  simp only [List.mem_cons, List.mem_singleton, List.not_mem_nil, or_false] at hn
  rcases hn with h | h | h | h | h | h | h | h | h | h <;> subst h
  · exact ⟨Big.gt, _, _, plugin_methods R A ("above", aboveRule R) (by simp [comparisonMethods])⟩
  · exact ⟨Big.gt, _, _, plugin_methods R A ("gt", aboveRule R) (by simp [comparisonMethods])⟩
  · exact ⟨Big.gt, _, _,
      plugin_methods R A ("greaterThan", aboveRule R) (by simp [comparisonMethods])⟩
  · exact ⟨Big.gte, _, _, plugin_methods R A ("least", leastRule R) (by simp [comparisonMethods])⟩
  · exact ⟨Big.gte, _, _, plugin_methods R A ("gte", leastRule R) (by simp [comparisonMethods])⟩
  · exact ⟨Big.lt, _, _, plugin_methods R A ("below", belowRule R) (by simp [comparisonMethods])⟩
  · exact ⟨Big.lt, _, _, plugin_methods R A ("lt", belowRule R) (by simp [comparisonMethods])⟩
  · exact ⟨Big.lt, _, _,
      plugin_methods R A ("lessThan", belowRule R) (by simp [comparisonMethods])⟩
  · exact ⟨Big.lte, _, _, plugin_methods R A ("most", mostRule R) (by simp [comparisonMethods])⟩
  · exact ⟨Big.lte, _, _, plugin_methods R A ("lte", mostRule R) (by simp [comparisonMethods])⟩

theorem equalRule_missing (R : Rendering) (c : Assertion) (wa : Value) :
    equalRule R c [wa, Value.undefined] = ⟨c, Except.error Failure.typeError⟩ := rfl

theorem orderRule_missing (R : Rendering) (op : Big → Big → Bool) (pos neg : String)
    (c : Assertion) (wa : Value) (a : Big) (h : wa.holds a) :
    compareRule R (fun actual expected => callCompare op actual expected) pos neg c
        [wa, Value.undefined]
      = ⟨c, Except.error (Failure.engine invalidNumber)⟩ := by
  rcases h with h | h <;> subst h <;> rfl

theorem closeToRule_missing_delta (R : Rendering) (c : Assertion) (wa wb : Value) (a b : Big)
    (ha : wa.holds a) (hb : wb.holds b) :
    closeToRule R c [wa, wb, Value.undefined]
      = ⟨c, Except.error (Failure.engine invalidNumber)⟩ := by
  rcases ha with h | h <;> subst h <;> rcases hb with h | h <;> subst h <;> rfl

theorem closeToRule_missing_both (R : Rendering) (c : Assertion) (wa : Value) :
    closeToRule R c [wa, Value.undefined] = ⟨c, Except.error Failure.typeError⟩ := rfl

theorem groupRules_methods (R : Rendering) (g : List String) (rule : Method)
    (hg : (g, rule) ∈ groupRules R) : ∀ n ∈ g, (n, rule) ∈ comparisonMethods R := by
  simp only [groupRules, List.mem_cons, List.mem_singleton, List.not_mem_nil, or_false,
    Prod.mk.injEq] at hg
  rcases hg with h | h | h | h | h <;> obtain ⟨h1, h2⟩ := h <;> subst h1 h2 <;>
    simp [comparisonMethods]

theorem overwriteMethod_unflagged (R : Rendering) (i : Nat) (rule original : Method)
    (c : Assertion) (args : List Value) (hflag : c.bignumber = false) :
    overwriteMethod R i rule original c args = original c args := by
  simp [overwriteMethod, hflag]

theorem overwriteProperty_unflagged (R : Rendering) (rule : Method) (original : Property)
    (c : Assertion) (hflag : c.bignumber = false) :
    overwriteProperty R rule original c = original c := by
  simp [overwriteProperty, hflag]

theorem overwriteMethod_decimalBranch (R : Rendering) (i : Nat) (rule original : Method)
    (c : Assertion) (args : List Value) (hflag : c.bignumber = true) :
    overwriteMethod R i rule original c args = decimalBranch R i rule c args := by
  simp only [overwriteMethod, hflag, if_true]
  rfl

theorem overwriteProperty_decimalBranch (R : Rendering) (rule : Method) (original : Property)
    (c : Assertion) (hflag : c.bignumber = true) :
    overwriteProperty R rule original c = decimalPropertyBranch R rule c := by
  simp only [overwriteProperty, hflag, if_true]
  rfl

theorem setMessage_empty (c : Assertion) : setMessage c (Value.string "") = c := by
  simp [setMessage, Value.truthy]

/-! ## The claims -/

/-- C1, as stated, fails: with the subject `'abc'`, a string the engine
rejects, and the native number 10 as the argument, `equal` on a flagged chain
raises the engine's error, not the invalid-operand failure. -/
theorem type_rejection_counterexample :
    (∀ (R : Rendering) (A : Registry),
      ((plugin R A).methods "equal" ⟨Value.string "abc", false, Value.undefined, true⟩
        [Value.number 10]).result = Except.error (Failure.engine invalidNumber))
    ∧ ¬ ∃ (R : Rendering) (A : Registry),
      ((plugin R A).methods "equal" ⟨Value.string "abc", false, Value.undefined, true⟩
        [Value.number 10]).invalidOperand (Value.number 10) := by
  have h : ∀ (R : Rendering) (A : Registry),
      ((plugin R A).methods "equal" ⟨Value.string "abc", false, Value.undefined, true⟩
        [Value.number 10]).result = Except.error (Failure.engine invalidNumber) := by
    intro R A
    rw [plugin_methods R A ("equal", equalRule R) (by simp [comparisonMethods])]
    have hp : Big.ofString "abc" = none := by decide
    simp [overwriteMethod, convert, isBig, Value.constructorName, construct, hp, Except.map]
  refine ⟨h, ?_⟩
  rintro ⟨R, A, m, hm, _⟩
  rw [h R A] at hm
  cases hm

/-- C1, amended: on a chain with the `bignumber` flag, plain or negated, let
`v` be a value that `isBig` does not recognise and that is not a string (a
native number of any size, `null`, `undefined`).  If `v` is the subject, every
overwritten method, with any arguments, and both properties raise the
invalid-operand failure on `v`.  If the subject converts and `v` is the first
argument, every overwritten method raises it.  If the subject and the first
argument convert and `v` is the second argument of `closeTo`, `closeTo`
raises it.  The failure's message ends with
`' to be an instance of Big or string'`. -/
theorem type_rejection (R : Rendering) (A : Registry) (c : Assertion) (v : Value)
    (hflag : c.bignumber = true) (hbig : isBig v = false) (hstr : v.isString = false) :
    (c.obj = v →
      (∀ n ∈ aliasGroups.flatten ++ ["closeTo"], ∀ args : List Value,
        ((plugin R A).methods n c args).invalidOperand v)
      ∧ (∀ n ∈ ["negative", "zero"], ((plugin R A).properties n c).invalidOperand v))
    ∧ (∀ wa : Value, convert R c.obj = Except.ok wa →
        ∀ n ∈ aliasGroups.flatten ++ ["closeTo"], ∀ rest : List Value,
          ((plugin R A).methods n c (v :: rest)).invalidOperand v)
    ∧ (∀ wa wb vb : Value, convert R c.obj = Except.ok wa → convert R vb = Except.ok wb →
        ∀ rest : List Value,
          ((plugin R A).methods "closeTo" c (vb :: v :: rest)).invalidOperand v) := by
  refine ⟨?_, ?_, ?_⟩
  · intro hobj
    subst hobj
    constructor
    · intro n hn args
      obtain ⟨i, rule, hw⟩ := method_wrapper R A n hn
      rw [hw]
      exact overwriteMethod_subject_invalid R _ rule _ c args hflag hbig hstr
    · intro n hn
      simp only [List.mem_cons, List.mem_singleton, List.not_mem_nil, or_false] at hn
      rcases hn with h | h <;> subst h
      · rw [plugin_negative]
        exact overwriteProperty_subject_invalid R _ _ c hflag hbig hstr
      · rw [plugin_zero]
        exact overwriteProperty_subject_invalid R _ _ c hflag hbig hstr
  · intro wa ha n hn rest
    obtain ⟨i, rule, hw⟩ := method_wrapper R A n hn
    rw [hw]
    exact overwriteMethod_first_invalid R i rule _ c wa v rest hflag ha hbig hstr
  · intro wa wb vb ha hb rest
    rw [plugin_closeTo]
    apply invalidOperand_of_result R
    simp only [overwriteMethod, hflag, if_true, ha, List.take_succ_cons, convertAll, hb,
      convert_invalid R v hbig hstr]

/-- C1 amended, on the tests' cases: the native number 10 as the subject of
`equal`, on the plain and on the negated chain, and as the argument of `equal`
with the subject `Big('10')`. -/
theorem type_rejection_witness :
    ((plugin exampleRendering exampleHost).methods "equal"
        ⟨Value.number 10, false, Value.undefined, true⟩
        [Value.string "10"]).invalidOperand (Value.number 10)
    ∧ ((plugin exampleRendering exampleHost).methods "equal"
        ⟨Value.number 10, true, Value.undefined, true⟩
        [Value.string "10"]).invalidOperand (Value.number 10)
    ∧ ((plugin exampleRendering exampleHost).methods "equal"
        ⟨Value.big ⟨10, 0⟩, false, Value.undefined, true⟩
        [Value.number 10]).invalidOperand (Value.number 10) :=
  ⟨((type_rejection exampleRendering exampleHost
        ⟨Value.number 10, false, Value.undefined, true⟩ (Value.number 10) rfl rfl rfl).1 rfl).1
      "equal" (by simp [aliasGroups]) [Value.string "10"],
   ((type_rejection exampleRendering exampleHost
        ⟨Value.number 10, true, Value.undefined, true⟩ (Value.number 10) rfl rfl rfl).1 rfl).1
      "equal" (by simp [aliasGroups]) [Value.string "10"],
   (type_rejection exampleRendering exampleHost
        ⟨Value.big ⟨10, 0⟩, false, Value.undefined, true⟩ (Value.number 10) rfl rfl rfl).2.1
      (Value.big ⟨10, 0⟩) rfl "equal" (by simp [aliasGroups]) []⟩

/-- C2: on a chain with the `bignumber` flag and no negation, for a subject
denoting the decimal `a`, an expected value denoting `b` and a tolerance
denoting `delta` (of any sign, zero included), `closeTo` passes iff
`|a - b| ≤ delta`. -/
theorem closeTo_iff_within (R : Rendering) (A : Registry) (c : Assertion) (vb vd : Value)
    (rest : List Value) (a b delta : Big)
    (hflag : c.bignumber = true) (hneg : c.negate = false)
    (ha : c.obj.decimal = some a) (hb : vb.decimal = some b)
    (hd : vd.decimal = some delta) :
    ((plugin R A).methods "closeTo" c (vb :: vd :: rest)).passes
      ↔ |a.toRat - b.toRat| ≤ delta.toRat := by
  rw [closeTo_call R A c vb vd rest a b delta hflag ha hb hd]
  simp only [Outcome.passes, assert_passes_iff, setMessage_negate, hneg, Bool.false_eq_true,
    if_false]
  exact closeTo_verdict_iff a b delta

/-- C2 at the boundary: with subject 15 and tolerance 5, `closeTo` passes for
the expected value 10 (distance exactly 5) and does not pass for 9. -/
theorem closeTo_iff_within_witness :
    ((plugin exampleRendering exampleHost).methods "closeTo"
        ⟨Value.big ⟨15, 0⟩, false, Value.undefined, true⟩
        [Value.string "10", Value.string "5"]).passes
    ∧ ¬ ((plugin exampleRendering exampleHost).methods "closeTo"
        ⟨Value.big ⟨15, 0⟩, false, Value.undefined, true⟩
        [Value.string "9", Value.string "5"]).passes :=
  ⟨(closeTo_iff_within exampleRendering exampleHost
        ⟨Value.big ⟨15, 0⟩, false, Value.undefined, true⟩ (Value.string "10")
        (Value.string "5") [] ⟨15, 0⟩ ⟨10, 0⟩ ⟨5, 0⟩ rfl rfl rfl (by decide) (by decide)).mpr
      (by norm_num [Big.toRat]),
   fun h => absurd
    ((closeTo_iff_within exampleRendering exampleHost
        ⟨Value.big ⟨15, 0⟩, false, Value.undefined, true⟩ (Value.string "9")
        (Value.string "5") [] ⟨15, 0⟩ ⟨9, 0⟩ ⟨5, 0⟩ rfl rfl rfl (by decide) (by decide)).mp h)
    (by norm_num [Big.toRat])⟩

/-- C3: on a chain with the `bignumber` flag and no negation, for a subject
denoting the decimal `a` and an argument denoting the decimal `b` (and whatever
follows the argument), `above`/`gt`/`greaterThan` pass iff `a > b`,
`least`/`gte` iff `a ≥ b`, `below`/`lt`/`lessThan` iff `a < b`, and
`most`/`lte` iff `a ≤ b`. -/
theorem order_rules_direction (R : Rendering) (A : Registry) (c : Assertion) (vb : Value)
    (rest : List Value) (a b : Big)
    (hflag : c.bignumber = true) (hneg : c.negate = false)
    (ha : c.obj.decimal = some a) (hb : vb.decimal = some b) :
    (∀ n ∈ ["above", "gt", "greaterThan"],
        ((plugin R A).methods n c (vb :: rest)).passes ↔ a.toRat > b.toRat)
    ∧ (∀ n ∈ ["least", "gte"],
        ((plugin R A).methods n c (vb :: rest)).passes ↔ a.toRat ≥ b.toRat)
    ∧ (∀ n ∈ ["below", "lt", "lessThan"],
        ((plugin R A).methods n c (vb :: rest)).passes ↔ a.toRat < b.toRat)
    ∧ (∀ n ∈ ["most", "lte"],
        ((plugin R A).methods n c (vb :: rest)).passes ↔ a.toRat ≤ b.toRat) := by
  refine ⟨?_, ?_, ?_, ?_⟩
  · intro n hn
    rw [comparison_passes_iff R A n _ _ _ (above_mem_table n hn)
      c vb rest a b hflag ha hb, hneg]
    simpa using Big.gt_iff a b
  · intro n hn
    rw [comparison_passes_iff R A n _ _ _ (least_mem_table n hn)
      c vb rest a b hflag ha hb, hneg]
    simpa using Big.gte_iff a b
  · intro n hn
    rw [comparison_passes_iff R A n _ _ _ (below_mem_table n hn)
      c vb rest a b hflag ha hb, hneg]
    simpa using Big.lt_iff a b
  · intro n hn
    rw [comparison_passes_iff R A n _ _ _ (most_mem_table n hn)
      c vb rest a b hflag ha hb, hneg]
    simpa using Big.lte_iff a b

/-- C3 at the spec's scenario: `greaterThan` with subject 15 and argument 10
passes, and with subject 10 and argument 15 it does not. -/
theorem order_rules_direction_witness :
    ((plugin exampleRendering exampleHost).methods "greaterThan"
        ⟨Value.string "15", false, Value.undefined, true⟩ [Value.string "10"]).passes
    ∧ ¬ ((plugin exampleRendering exampleHost).methods "greaterThan"
        ⟨Value.string "10", false, Value.undefined, true⟩ [Value.string "15"]).passes :=
  ⟨((order_rules_direction exampleRendering exampleHost
        ⟨Value.string "15", false, Value.undefined, true⟩ (Value.string "10") []
        ⟨15, 0⟩ ⟨10, 0⟩ rfl rfl (by decide) (by decide)).1 "greaterThan" (by simp)).mpr
      (by norm_num [Big.toRat]),
   fun h => absurd
    (((order_rules_direction exampleRendering exampleHost
        ⟨Value.string "10", false, Value.undefined, true⟩ (Value.string "15") []
        ⟨10, 0⟩ ⟨15, 0⟩ rfl rfl (by decide) (by decide)).1 "greaterThan" (by simp)).mp h)
    (by norm_num [Big.toRat])⟩

/-- C4: on a chain with the `bignumber` flag and no negation, for a subject
denoting the decimal `a` and an argument denoting the decimal `b`, each of
`equal`, `equals`, `eq` passes iff `a` and `b` are the same number; the
comparison is exact at any size. -/
theorem equal_iff_same_number (R : Rendering) (A : Registry) (c : Assertion) (vb : Value)
    (rest : List Value) (a b : Big)
    (hflag : c.bignumber = true) (hneg : c.negate = false)
    (ha : c.obj.decimal = some a) (hb : vb.decimal = some b) :
    ∀ n ∈ ["equal", "equals", "eq"],
      ((plugin R A).methods n c (vb :: rest)).passes ↔ a.toRat = b.toRat := by
  intro n hn
  rw [comparison_passes_iff R A n _ _ _ (equal_mem_table n hn)
    c vb rest a b hflag ha hb, hneg]
  simp only [Bool.false_eq_true, if_false]
  rw [Big.eq_iff]
  exact eq_comm

/-- C4 at the spec's scenario: 123456789123456789123456789 equals itself and
does not equal 123456789123456789123456788. -/
theorem equal_iff_same_number_witness :
    ((plugin exampleRendering exampleHost).methods "equal"
        ⟨Value.string "123456789123456789123456789", false, Value.undefined, true⟩
        [Value.string "123456789123456789123456789"]).passes
    ∧ ¬ ((plugin exampleRendering exampleHost).methods "equal"
        ⟨Value.string "123456789123456789123456789", false, Value.undefined, true⟩
        [Value.string "123456789123456789123456788"]).passes :=
  ⟨(equal_iff_same_number exampleRendering exampleHost
        ⟨Value.string "123456789123456789123456789", false, Value.undefined, true⟩
        (Value.string "123456789123456789123456789") []
        ⟨123456789123456789123456789, 0⟩ ⟨123456789123456789123456789, 0⟩
        rfl rfl (by decide) (by decide) "equal" (by simp)).mpr rfl,
   fun h => absurd
    ((equal_iff_same_number exampleRendering exampleHost
        ⟨Value.string "123456789123456789123456789", false, Value.undefined, true⟩
        (Value.string "123456789123456789123456788") []
        ⟨123456789123456789123456789, 0⟩ ⟨123456789123456789123456788, 0⟩
        rfl rfl (by decide) (by decide) "equal" (by simp)).mp h)
    (by norm_num [Big.toRat])⟩

/-- C5: on a chain with the `bignumber` flag and no negation, for a subject
denoting the decimal `a`, the property `negative` passes iff `a < 0` and the
property `zero` passes iff `a = 0`. -/
theorem sign_predicates (R : Rendering) (A : Registry) (c : Assertion) (a : Big)
    (hflag : c.bignumber = true) (hneg : c.negate = false)
    (ha : c.obj.decimal = some a) :
    (((plugin R A).properties "negative" c).passes ↔ a.toRat < 0)
    ∧ (((plugin R A).properties "zero" c).passes ↔ a.toRat = 0) := by
  constructor
  · rw [negative_call R A c a hflag ha]
    simp only [Outcome.passes, assert_passes_iff, hneg, Bool.false_eq_true, if_false]
    rw [Big.lt_iff, Big.toRat_zero]
  · rw [zero_call R A c a hflag ha]
    simp only [Outcome.passes, assert_passes_iff, hneg, Bool.false_eq_true, if_false]
    rw [Big.eq_iff, Big.toRat_zero]

/-- C5 at the spec's scenarios: `zero` passes for `Big('0')` and not for
`Big('1')`, `Big('-1')`; `negative` passes for `Big('-1')` and not for
`Big('0')`, `Big('1')`. -/
theorem sign_predicates_witness :
    ((plugin exampleRendering exampleHost).properties "zero"
        ⟨Value.big ⟨0, 0⟩, false, Value.undefined, true⟩).passes
    ∧ ¬ ((plugin exampleRendering exampleHost).properties "zero"
        ⟨Value.big ⟨1, 0⟩, false, Value.undefined, true⟩).passes
    ∧ ¬ ((plugin exampleRendering exampleHost).properties "zero"
        ⟨Value.big ⟨-1, 0⟩, false, Value.undefined, true⟩).passes
    ∧ ((plugin exampleRendering exampleHost).properties "negative"
        ⟨Value.big ⟨-1, 0⟩, false, Value.undefined, true⟩).passes
    ∧ ¬ ((plugin exampleRendering exampleHost).properties "negative"
        ⟨Value.big ⟨0, 0⟩, false, Value.undefined, true⟩).passes
    ∧ ¬ ((plugin exampleRendering exampleHost).properties "negative"
        ⟨Value.big ⟨1, 0⟩, false, Value.undefined, true⟩).passes :=
  ⟨(sign_predicates exampleRendering exampleHost
      ⟨Value.big ⟨0, 0⟩, false, Value.undefined, true⟩ ⟨0, 0⟩ rfl rfl rfl).2.mpr
      (by norm_num [Big.toRat]),
   fun h => absurd ((sign_predicates exampleRendering exampleHost
      ⟨Value.big ⟨1, 0⟩, false, Value.undefined, true⟩ ⟨1, 0⟩ rfl rfl rfl).2.mp h)
      (by norm_num [Big.toRat]),
   fun h => absurd ((sign_predicates exampleRendering exampleHost
      ⟨Value.big ⟨-1, 0⟩, false, Value.undefined, true⟩ ⟨-1, 0⟩ rfl rfl rfl).2.mp h)
      (by norm_num [Big.toRat]),
   (sign_predicates exampleRendering exampleHost
      ⟨Value.big ⟨-1, 0⟩, false, Value.undefined, true⟩ ⟨-1, 0⟩ rfl rfl rfl).1.mpr
      (by norm_num [Big.toRat]),
   fun h => absurd ((sign_predicates exampleRendering exampleHost
      ⟨Value.big ⟨0, 0⟩, false, Value.undefined, true⟩ ⟨0, 0⟩ rfl rfl rfl).1.mp h)
      (by norm_num [Big.toRat]),
   fun h => absurd ((sign_predicates exampleRendering exampleHost
      ⟨Value.big ⟨1, 0⟩, false, Value.undefined, true⟩ ⟨1, 0⟩ rfl rfl rfl).1.mp h)
      (by norm_num [Big.toRat])⟩

/-- C6: on a chain with the `bignumber` flag and a valid subject, for every
equality and order method with a valid argument, for `closeTo` with a valid
expected value and a valid tolerance, and for the properties `negative` and
`zero`, exactly one of the chain and the chain with `not` passes, and the other
raises the host's assertion failure. -/
theorem negation_duality (R : Rendering) (A : Registry) (c : Assertion) (a : Big)
    (hflag : c.bignumber = true) (ha : c.obj.decimal = some a) :
    (∀ n ∈ aliasGroups.flatten, ∀ (vb : Value) (rest : List Value) (b : Big),
        vb.decimal = some b →
        exactlyOnePasses ((plugin R A).methods n c (vb :: rest))
          ((plugin R A).methods n c.not (vb :: rest)))
    ∧ (∀ (vb vd : Value) (rest : List Value) (b d : Big),
        vb.decimal = some b → vd.decimal = some d →
        exactlyOnePasses ((plugin R A).methods "closeTo" c (vb :: vd :: rest))
          ((plugin R A).methods "closeTo" c.not (vb :: vd :: rest)))
    ∧ exactlyOnePasses ((plugin R A).properties "negative" c)
        ((plugin R A).properties "negative" c.not)
    ∧ exactlyOnePasses ((plugin R A).properties "zero" c)
        ((plugin R A).properties "zero" c.not) := by
  have hflag2 : c.not.bignumber = true := hflag
  have ha2 : c.not.obj.decimal = some a := ha
  refine ⟨?_, ?_, ?_, ?_⟩
  · intro n hn vb rest b hb
    obtain ⟨op, msg, negateMsg, ht⟩ := table_of_name n hn
    rw [comparison_call R A n op msg negateMsg ht c vb rest a b hflag ha hb,
      comparison_call R A n op msg negateMsg ht c.not vb rest a b hflag2 ha2 hb]
    exact assert_exactly_one R _ _ _ _ _ _ _ _ _ _ _
      (by simp only [setMessage_negate]; rfl)
  · intro vb vd rest b d hb hd
    rw [closeTo_call R A c vb vd rest a b d hflag ha hb hd,
      closeTo_call R A c.not vb vd rest a b d hflag2 ha2 hb hd]
    exact assert_exactly_one R _ _ _ _ _ _ _ _ _ _ _
      (by simp only [setMessage_negate]; rfl)
  · rw [negative_call R A c a hflag ha, negative_call R A c.not a hflag2 ha2]
    exact assert_exactly_one R _ _ _ _ _ _ _ _ _ _ _ rfl
  · rw [zero_call R A c a hflag ha, zero_call R A c.not a hflag2 ha2]
    exact assert_exactly_one R _ _ _ _ _ _ _ _ _ _ _ rfl

/-- C6 on an example: for the subject `'10'` and the argument `'9'`, of
`equal` and `not.equal` exactly one passes. -/
theorem negation_duality_witness :
    exactlyOnePasses
      ((plugin exampleRendering exampleHost).methods "equal"
        ⟨Value.string "10", false, Value.undefined, true⟩ [Value.string "9"])
      ((plugin exampleRendering exampleHost).methods "equal"
        (Assertion.not ⟨Value.string "10", false, Value.undefined, true⟩) [Value.string "9"]) :=
  (negation_duality exampleRendering exampleHost
    ⟨Value.string "10", false, Value.undefined, true⟩ ⟨10, 0⟩ rfl (by decide)).1
    "equal" (by simp [aliasGroups]) (Value.string "9") [] ⟨9, 0⟩ (by decide)

/-- C7: on a chain without the `bignumber` flag, every overwritten method, with
any argument list, and every overwritten property comes to exactly what the
host's original of that name comes to on the same chain and arguments: the
same final chain and the same result. -/
theorem mode_isolation (R : Rendering) (A : Registry) (c : Assertion)
    (hflag : c.bignumber = false) :
    (∀ n ∈ aliasGroups.flatten ++ ["closeTo"], ∀ args : List Value,
        (plugin R A).methods n c args = A.methods n c args)
    ∧ (∀ n ∈ ["negative", "zero"], (plugin R A).properties n c = A.properties n c) := by
  constructor
  · intro n hn args
    rw [List.mem_append] at hn
    rcases hn with hn | hn
    · obtain ⟨rule, hr⟩ := methods_of_name R n hn
      rw [plugin_methods R A (n, rule) hr]
      simp [overwriteMethod, hflag]
    · have h : n = "closeTo" := by simpa using hn
      subst h
      rw [plugin_closeTo]
      simp [overwriteMethod, hflag]
  · intro n hn
    simp only [List.mem_cons, List.mem_singleton, List.not_mem_nil, or_false] at hn
    rcases hn with h | h <;> subst h
    · rw [plugin_negative]
      simp [overwriteProperty, hflag]
    · rw [plugin_zero]
      simp [overwriteProperty, hflag]

/-- C7 on an example: without the flag, `equal` on the native numbers 1 and 2
is the host's own `equal`. -/
theorem mode_isolation_witness :
    (plugin exampleRendering exampleHost).methods "equal"
        ⟨Value.number 1, false, Value.undefined, false⟩ [Value.number 2]
      = exampleHost.methods "equal"
        ⟨Value.number 1, false, Value.undefined, false⟩ [Value.number 2] :=
  (mode_isolation exampleRendering exampleHost
    ⟨Value.number 1, false, Value.undefined, false⟩ rfl).1
    "equal" (by simp [aliasGroups]) [Value.number 2]

/-- C8, as stated, fails on a chain without the flag: over a host whose
original `eq` is not its original `equal`, `equal` passes and `eq` fails on
the same unflagged chain and arguments. -/
theorem alias_consistency_counterexample :
    ((plugin exampleRendering divergentHost).methods "equal"
        ⟨Value.number 10, false, Value.undefined, false⟩ [Value.number 10]).passes
    ∧ ((plugin exampleRendering divergentHost).methods "eq"
        ⟨Value.number 10, false, Value.undefined, false⟩ [Value.number 10]).fails
    ∧ (plugin exampleRendering divergentHost).methods "equal"
        ⟨Value.number 10, false, Value.undefined, false⟩ [Value.number 10]
      ≠ (plugin exampleRendering divergentHost).methods "eq"
        ⟨Value.number 10, false, Value.undefined, false⟩ [Value.number 10] := by
  have h1 : (plugin exampleRendering divergentHost).methods "equal"
      ⟨Value.number 10, false, Value.undefined, false⟩ [Value.number 10]
      = ⟨⟨Value.number 10, false, Value.undefined, false⟩, Except.ok ()⟩ := by
    rw [plugin_methods exampleRendering divergentHost ("equal", equalRule exampleRendering)
      (by simp [comparisonMethods])]
    rfl
  have h2 : (plugin exampleRendering divergentHost).methods "eq"
      ⟨Value.number 10, false, Value.undefined, false⟩ [Value.number 10]
      = ⟨⟨Value.number 10, false, Value.undefined, false⟩,
          Except.error (Failure.assertion "eq" (Value.number 10) Value.undefined)⟩ := by
    rw [plugin_methods exampleRendering divergentHost ("eq", equalRule exampleRendering)
      (by simp [comparisonMethods])]
    rfl
  rw [h1, h2]
  refine ⟨rfl, ⟨_, _, _, rfl⟩, ?_⟩
  intro h
  have hr := congrArg Outcome.result h
  cases hr

/-- C8, amended: the groups of `groupRules` are the alias groups, and every
name of a group is installed as the same wrapper with the same rule around the
host's original of that name.  So on a chain with the `bignumber` flag any two
names of a group come to the same outcome (the same final chain and the same
result, failure message included) for every subject, negation and argument
list; and on a chain without the flag each name comes to what the host's
original of that same name comes to, so that two names agree there exactly
when the host's originals do. -/
theorem alias_consistency (R : Rendering) (A : Registry) (g : List String) (rule : Method)
    (hg : (g, rule) ∈ groupRules R) (n1 n2 : String) (h1 : n1 ∈ g) (h2 : n2 ∈ g)
    (c : Assertion) (args : List Value) :
    (groupRules R).map Prod.fst = aliasGroups
    ∧ (plugin R A).methods n1 = overwriteMethod R 1 rule (A.methods n1)
    ∧ (plugin R A).methods n2 = overwriteMethod R 1 rule (A.methods n2)
    ∧ (c.bignumber = true →
        (plugin R A).methods n1 c args = decimalBranch R 1 rule c args
        ∧ (plugin R A).methods n2 c args = decimalBranch R 1 rule c args
        ∧ (plugin R A).methods n1 c args = (plugin R A).methods n2 c args)
    ∧ (c.bignumber = false →
        (plugin R A).methods n1 c args = A.methods n1 c args
        ∧ (plugin R A).methods n2 c args = A.methods n2 c args
        ∧ ((plugin R A).methods n1 c args = (plugin R A).methods n2 c args
            ↔ A.methods n1 c args = A.methods n2 c args)) := by
  have hm1 := plugin_methods R A (n1, rule) (groupRules_methods R g rule hg n1 h1)
  have hm2 := plugin_methods R A (n2, rule) (groupRules_methods R g rule hg n2 h2)
  refine ⟨rfl, hm1, hm2, ?_, ?_⟩
  · intro hflag
    have e1 : (plugin R A).methods n1 c args = decimalBranch R 1 rule c args := by
      rw [hm1]
      exact overwriteMethod_decimalBranch R 1 rule _ c args hflag
    have e2 : (plugin R A).methods n2 c args = decimalBranch R 1 rule c args := by
      rw [hm2]
      exact overwriteMethod_decimalBranch R 1 rule _ c args hflag
    exact ⟨e1, e2, e1.trans e2.symm⟩
  · intro hflag
    have e1 : (plugin R A).methods n1 c args = A.methods n1 c args := by
      rw [hm1]
      exact overwriteMethod_unflagged R 1 rule _ c args hflag
    have e2 : (plugin R A).methods n2 c args = A.methods n2 c args := by
      rw [hm2]
      exact overwriteMethod_unflagged R 1 rule _ c args hflag
    refine ⟨e1, e2, ?_⟩
    rw [e1, e2]

/-- C8 amended, on an example: on a flagged chain `equal` and `eq` come to the
same outcome, also over the host whose originals differ. -/
theorem alias_consistency_witness :
    (plugin exampleRendering divergentHost).methods "equal"
        ⟨Value.string "10", true, Value.undefined, true⟩ [Value.string "9"]
      = (plugin exampleRendering divergentHost).methods "eq"
        ⟨Value.string "10", true, Value.undefined, true⟩ [Value.string "9"] :=
  ((alias_consistency exampleRendering divergentHost ["equal", "equals", "eq"]
      (equalRule exampleRendering) (by simp [groupRules]) "equal" "eq" (by simp) (by simp)
      ⟨Value.string "10", true, Value.undefined, true⟩ [Value.string "9"]).2.2.2.1 rfl).2.2

/-- C9: `convert` returns an instance of `Big` as it is and turns a string `s`
into `new Big(s)`; so, on a flagged chain, for strings `sa`, `sb` the engine
reads as literals, every equality and order method has the same result
(pass, or the same failure with the same message) whether the subject is `sa`
or `Big(sa)` and the argument `sb` or `Big(sb)`, and `closeTo` passes, and
fails, for the same ones of the four combinations. -/
theorem representation_independence (R : Rendering) (A : Registry) (c : Assertion)
    (sa sb : String) (a b : Big) (hflag : c.bignumber = true)
    (ha : Big.ofString sa = some a) (hb : Big.ofString sb = some b) :
    (∀ x : Big, convert R (Value.big x) = Except.ok (Value.big x))
    ∧ (∀ s : String, convert R (Value.string s) = (construct s).map Value.big)
    ∧ (∀ n ∈ aliasGroups.flatten, ∀ rest : List Value,
        ∀ va ∈ [Value.string sa, Value.big a], ∀ vb ∈ [Value.string sb, Value.big b],
          ((plugin R A).methods n { c with obj := va } (vb :: rest)).result
            = ((plugin R A).methods n { c with obj := Value.string sa }
                (Value.string sb :: rest)).result)
    ∧ (∀ (vd : Value) (d : Big), vd.decimal = some d → ∀ rest : List Value,
        ∀ va ∈ [Value.string sa, Value.big a], ∀ vb ∈ [Value.string sb, Value.big b],
          (((plugin R A).methods "closeTo" { c with obj := va } (vb :: vd :: rest)).passes
            ↔ ((plugin R A).methods "closeTo" { c with obj := Value.string sa }
                (Value.string sb :: vd :: rest)).passes)
          ∧ (((plugin R A).methods "closeTo" { c with obj := va } (vb :: vd :: rest)).fails
            ↔ ((plugin R A).methods "closeTo" { c with obj := Value.string sa }
                (Value.string sb :: vd :: rest)).fails)) := by
  have hva : ∀ va ∈ [Value.string sa, Value.big a], va.decimal = some a := by
    intro va h
    simp only [List.mem_cons, List.mem_singleton, List.not_mem_nil, or_false] at h
    rcases h with h | h <;> subst h
    · exact ha
    · rfl
  have hvb : ∀ vb ∈ [Value.string sb, Value.big b], vb.decimal = some b := by
    intro vb h
    simp only [List.mem_cons, List.mem_singleton, List.not_mem_nil, or_false] at h
    rcases h with h | h <;> subst h
    · exact hb
    · rfl
  refine ⟨?_, ?_, ?_, ?_⟩
  · intro x
    simp [convert, isBig]
  · intro s
    simp [convert, isBig, Value.constructorName]
  · intro n hn rest va hva1 vb hvb1
    obtain ⟨op, msg, negateMsg, ht⟩ := table_of_name n hn
    rw [comparison_call R A n op msg negateMsg ht { c with obj := va } vb rest a b hflag
        (hva va hva1) (hvb vb hvb1),
      comparison_call R A n op msg negateMsg ht { c with obj := Value.string sa }
        (Value.string sb) rest a b hflag ha hb]
    exact assert_subject R _ _ _ _ _ _ _ (by simp only [setMessage_negate])
      ((setMessage_message_obj c va _).trans (setMessage_message_obj c (Value.string sa) _).symm)
      (substitute_subject R n op msg negateMsg ht _ _ _ _)
  · intro vd d hd rest va hva1 vb hvb1
    rw [closeTo_call R A { c with obj := va } vb vd rest a b d hflag (hva va hva1)
        (hvb vb hvb1) hd,
      closeTo_call R A { c with obj := Value.string sa } (Value.string sb) vd rest a b d
        hflag ha hb hd]
    simp only [Outcome.passes, Outcome.fails, assert_passes_iff, assert_fails_iff,
      setMessage_negate, and_self]

/-- C9 on an example: `equal` with subject `Big('10')` and argument `'9'` has
the result it has with subject `'10'` and argument `'9'`. -/
theorem representation_independence_witness :
    ((plugin exampleRendering exampleHost).methods "equal"
        ⟨Value.big ⟨10, 0⟩, false, Value.undefined, true⟩ [Value.string "9"]).result
      = ((plugin exampleRendering exampleHost).methods "equal"
        ⟨Value.string "10", false, Value.undefined, true⟩ [Value.string "9"]).result :=
  (representation_independence exampleRendering exampleHost
    ⟨Value.string "10", false, Value.undefined, true⟩ "10" "9" ⟨10, 0⟩ ⟨9, 0⟩ rfl
    (by decide) (by decide)).2.2.1 "equal" (by simp [aliasGroups]) []
    (Value.big ⟨10, 0⟩) (by simp) (Value.string "9") (by simp)

/-- C10, as stated, fails for the empty message: `equal('9', '')` on the
subject `'10'` raises the assertion failure, and its message does not begin
with the passed text followed by `':'`. -/
theorem custom_message_counterexample :
    (∀ (R : Rendering) (A : Registry),
      ((plugin R A).methods "equal" ⟨Value.string "10", false, Value.undefined, true⟩
        [Value.string "9", Value.string ""]).fails)
    ∧ ¬ ∃ (R : Rendering) (A : Registry) (msg : String) (x y : Value),
      ((plugin R A).methods "equal" ⟨Value.string "10", false, Value.undefined, true⟩
        [Value.string "9", Value.string ""]).result
          = Except.error (Failure.assertion msg x y)
      ∧ beginsWith msg ("" ++ ":") := by
  have h : ∀ (R : Rendering) (A : Registry),
      ((plugin R A).methods "equal" ⟨Value.string "10", false, Value.undefined, true⟩
        [Value.string "9", Value.string ""]).result
        = Except.error (Failure.assertion
            (substitute R (Value.string "10") (Value.string (R.bigToString ⟨10, 0⟩))
              (Value.string (R.bigToString ⟨9, 0⟩)) "expected #{act} to equal #{exp}")
            (Value.string (R.bigToString ⟨10, 0⟩)) (Value.string (R.bigToString ⟨9, 0⟩))) := by
    intro R A
    rw [comparison_call R A "equal" _ _ _ (equal_mem_table "equal" (by simp))
      ⟨Value.string "10", false, Value.undefined, true⟩ (Value.string "9") [Value.string ""]
      ⟨10, 0⟩ ⟨9, 0⟩ rfl (by decide) (by decide)]
    exact assert_without_message R ⟨Value.string "10", false, Value.undefined, true⟩ rfl
      (Big.eq ⟨9, 0⟩ ⟨10, 0⟩) _ _ _ _ (by rw [assert_passes_iff]; decide)
  refine ⟨fun R A => ⟨_, _, _, h R A⟩, ?_⟩
  rintro ⟨R, A, msg, x, y, hres, rest, hrest⟩
  rw [h R A] at hres
  have hmsg := (Failure.assertion.inj (Except.error.inj hres)).1
  have hhead : ∃ t, (substitute R (Value.string "10") (Value.string (R.bigToString ⟨10, 0⟩))
      (Value.string (R.bigToString ⟨9, 0⟩)) "expected #{act} to equal #{exp}").data
        = 'e' :: t := ⟨_, rfl⟩
  obtain ⟨t, ht⟩ := hhead
  rw [hmsg, hrest] at ht
  have hc : ':' = 'e' := (List.cons.inj ht).1
  exact absurd hc (by decide)

/-- C10, amended to a non-empty message text `m`: on a flagged chain with
valid operands, when an equality or order method, or `closeTo`, called with
`m` in the message position does not pass, it raises the assertion failure
whose message is `m`, then `': '`, then the rule's template for the chain's
polarity (the positive one on a plain chain, the negated one on a `not`
chain) with the operands' texts put in; called without a message on a chain
that carries none, the message is that template alone.  The call with `m`
leaves the chain's message flag set to `m`; the call with the empty text in
the message position is the call without a message argument, and both leave
the chain, its message flag included, as it was. -/
theorem custom_message_precedence (R : Rendering) (A : Registry) (c : Assertion)
    (vb : Value) (a b : Big) (m : String) (hm : m ≠ "")
    (hflag : c.bignumber = true) (ha : c.obj.decimal = some a) (hb : vb.decimal = some b) :
    (∀ (n : String) (op : Big → Big → Bool) (pos neg : String),
      (n, op, pos, neg) ∈ comparisonTable →
        (¬ ((plugin R A).methods n c [vb, Value.string m]).passes →
          ((plugin R A).methods n c [vb, Value.string m]).result
            = Except.error (Failure.assertion
                (m ++ ": " ++ substitute R c.obj (Value.string (R.bigToString a))
                  (Value.string (R.bigToString b)) (if c.negate then neg else pos))
                (Value.string (R.bigToString a)) (Value.string (R.bigToString b))))
        ∧ (c.message.truthy = false → ¬ ((plugin R A).methods n c [vb]).passes →
          ((plugin R A).methods n c [vb]).result
            = Except.error (Failure.assertion
                (substitute R c.obj (Value.string (R.bigToString a))
                  (Value.string (R.bigToString b)) (if c.negate then neg else pos))
                (Value.string (R.bigToString a)) (Value.string (R.bigToString b)))))
    ∧ (∀ (vd : Value) (d : Big), vd.decimal = some d →
        (¬ ((plugin R A).methods "closeTo" c [vb, vd, Value.string m]).passes →
          ((plugin R A).methods "closeTo" c [vb, vd, Value.string m]).result
            = Except.error (Failure.assertion
                (m ++ ": " ++ substitute R c.obj (Value.string (R.bigToString a))
                  (Value.string (R.bigToString b))
                  (if c.negate
                    then "expected #{act} to be further than '" ++ R.bigToString d
                      ++ "' from #{exp}"
                    else "expected #{act} to be within '" ++ R.bigToString d ++ "' of #{exp}"))
                (Value.string (R.bigToString a)) (Value.string (R.bigToString b))))
        ∧ (c.message.truthy = false →
          ¬ ((plugin R A).methods "closeTo" c [vb, vd]).passes →
          ((plugin R A).methods "closeTo" c [vb, vd]).result
            = Except.error (Failure.assertion
                (substitute R c.obj (Value.string (R.bigToString a))
                  (Value.string (R.bigToString b))
                  (if c.negate
                    then "expected #{act} to be further than '" ++ R.bigToString d
                      ++ "' from #{exp}"
                    else "expected #{act} to be within '" ++ R.bigToString d ++ "' of #{exp}"))
                (Value.string (R.bigToString a)) (Value.string (R.bigToString b)))))
    ∧ (∀ (n : String) (op : Big → Big → Bool) (pos neg : String),
      (n, op, pos, neg) ∈ comparisonTable →
        ((plugin R A).methods n c [vb, Value.string m]).chain
          = { c with message := Value.string m }
        ∧ ((plugin R A).methods n c [vb, Value.string ""]).chain = c
        ∧ ((plugin R A).methods n c [vb]).chain = c
        ∧ (plugin R A).methods n c [vb, Value.string ""] = (plugin R A).methods n c [vb])
    ∧ (∀ (vd : Value) (d : Big), vd.decimal = some d →
        ((plugin R A).methods "closeTo" c [vb, vd, Value.string m]).chain
          = { c with message := Value.string m }
        ∧ ((plugin R A).methods "closeTo" c [vb, vd, Value.string ""]).chain = c
        ∧ ((plugin R A).methods "closeTo" c [vb, vd]).chain = c
        ∧ (plugin R A).methods "closeTo" c [vb, vd, Value.string ""]
          = (plugin R A).methods "closeTo" c [vb, vd]) := by
  refine ⟨?_, ?_, ?_, ?_⟩
  · intro n op pos neg ht
    constructor
    · rw [comparison_call R A n op pos neg ht c vb [Value.string m] a b hflag ha hb]
      have e1 : spreadHead (argAt [vb, Value.string m] 1) = Value.string m := rfl
      rw [e1, setMessage_text c m hm]
      exact assert_with_message R c m hm _ _ _ _ _
    · intro hc
      rw [comparison_call R A n op pos neg ht c vb [] a b hflag ha hb]
      have e1 : spreadHead (argAt [vb] 1) = Value.undefined := rfl
      rw [e1, setMessage_undefined]
      exact assert_without_message R c hc _ _ _ _ _
  · intro vd d hd
    constructor
    · rw [closeTo_call R A c vb vd [Value.string m] a b d hflag ha hb hd]
      have e1 : spreadHead (argAt [vb, vd, Value.string m] 2) = Value.string m := rfl
      rw [e1, setMessage_text c m hm]
      exact assert_with_message R c m hm _ _ _ _ _
    · intro hc
      rw [closeTo_call R A c vb vd [] a b d hflag ha hb hd]
      have e1 : spreadHead (argAt [vb, vd] 2) = Value.undefined := rfl
      rw [e1, setMessage_undefined]
      exact assert_without_message R c hc _ _ _ _ _
  · intro n op pos neg ht
    have e1 : spreadHead (argAt [vb, Value.string m] 1) = Value.string m := rfl
    have e2 : spreadHead (argAt [vb, Value.string ""] 1) = Value.string "" := rfl
    have e3 : spreadHead (argAt [vb] 1) = Value.undefined := rfl
    rw [comparison_call R A n op pos neg ht c vb [Value.string m] a b hflag ha hb,
      comparison_call R A n op pos neg ht c vb [Value.string ""] a b hflag ha hb,
      comparison_call R A n op pos neg ht c vb [] a b hflag ha hb,
      e1, e2, e3, setMessage_text c m hm, setMessage_empty, setMessage_undefined]
    exact ⟨rfl, rfl, rfl, rfl⟩
  · intro vd d hd
    have e1 : spreadHead (argAt [vb, vd, Value.string m] 2) = Value.string m := rfl
    have e2 : spreadHead (argAt [vb, vd, Value.string ""] 2) = Value.string "" := rfl
    have e3 : spreadHead (argAt [vb, vd] 2) = Value.undefined := rfl
    rw [closeTo_call R A c vb vd [Value.string m] a b d hflag ha hb hd,
      closeTo_call R A c vb vd [Value.string ""] a b d hflag ha hb hd,
      closeTo_call R A c vb vd [] a b d hflag ha hb hd,
      e1, e2, e3, setMessage_text c m hm, setMessage_empty, setMessage_undefined]
    exact ⟨rfl, rfl, rfl, rfl⟩

/-- C10 amended, on the tests' case: `equal('9', 'Custom message')` on the
subject `'10'` raises the failure whose message is the custom text, `': '`
and the filled positive template. -/
theorem custom_message_precedence_witness :
    ((plugin exampleRendering exampleHost).methods "equal"
        ⟨Value.string "10", false, Value.undefined, true⟩
        [Value.string "9", Value.string "Custom message"]).result
      = Except.error (Failure.assertion "Custom message: expected '10' to equal '9'"
          (Value.string "10") (Value.string "9")) :=
  (((custom_message_precedence exampleRendering exampleHost
        ⟨Value.string "10", false, Value.undefined, true⟩ (Value.string "9")
        ⟨10, 0⟩ ⟨9, 0⟩ "Custom message" (by decide) rfl (by decide) (by decide)).1
      "equal" _ _ _ (equal_mem_table "equal" (by simp))).1
    (by
      rw [comparison_passes_iff exampleRendering exampleHost "equal" _ _ _
        (equal_mem_table "equal" (by simp)) _ (Value.string "9") _ ⟨10, 0⟩ ⟨9, 0⟩ rfl
        (by decide) (by decide)]
      decide)).trans rfl

/-- C11: on a flagged chain, when the conversion of the subject and of the
arguments before the message index fails with the failure `e`, the call comes
to `e` with the chain exactly as it was before the call, whatever message was
passed, and it does so for every rule the wrapper could have been given: the
rule (its predicate, its `assert`, its setting of the message flag) is not
run.  This holds for every overwritten method and both properties; and when
the operand at which conversion stops is neither recognised by `isBig` nor a
string, `e` is the invalid-operand failure on it. -/
theorem fail_fast_coercion (R : Rendering) (A : Registry) (c : Assertion) (args : List Value)
    (e : Failure) (hflag : c.bignumber = true) :
    (∀ (i : Nat) (rule original : Method),
        convertAll R (c.obj :: args.take i) = Except.error e →
        overwriteMethod R i rule original c args = ⟨c, Except.error e⟩)
    ∧ (∀ n ∈ aliasGroups.flatten, convertAll R (c.obj :: args.take 1) = Except.error e →
        (plugin R A).methods n c args = ⟨c, Except.error e⟩)
    ∧ (convertAll R (c.obj :: args.take 2) = Except.error e →
        (plugin R A).methods "closeTo" c args = ⟨c, Except.error e⟩)
    ∧ (∀ n ∈ ["negative", "zero"], convert R c.obj = Except.error e →
        (plugin R A).properties n c = ⟨c, Except.error e⟩)
    ∧ (∀ (i : Nat) (rule original : Method) (pre post ws : List Value) (v : Value),
        c.obj :: args.take i = pre ++ v :: post → convertAll R pre = Except.ok ws →
        isBig v = false → v.isString = false →
        (overwriteMethod R i rule original c args).chain = c
        ∧ (overwriteMethod R i rule original c args).invalidOperand v) := by
  refine ⟨?_, ?_, ?_, ?_, ?_⟩
  · intro i rule original h
    exact overwriteMethod_convert_error R i rule original c args e hflag h
  · intro n hn h
    obtain ⟨rule, hr⟩ := methods_of_name R n hn
    rw [plugin_methods R A (n, rule) hr]
    exact overwriteMethod_convert_error R 1 rule _ c args e hflag h
  · intro h
    rw [plugin_closeTo]
    exact overwriteMethod_convert_error R 2 _ _ c args e hflag h
  · intro n hn h
    simp only [List.mem_cons, List.mem_singleton, List.not_mem_nil, or_false] at hn
    rcases hn with h1 | h1 <;> subst h1
    · rw [plugin_negative]
      exact overwriteProperty_convert_error R _ _ c e hflag h
    · rw [plugin_zero]
      exact overwriteProperty_convert_error R _ _ c e hflag h
  · intro i rule original pre post ws v hsplit hpre hbig hstr
    have herr : convertAll R (c.obj :: args.take i) = Except.error (Failure.assertion
        (getMessage R (Assertion.fresh v) invalidOperandTemplate "" Value.undefined v)
        v Value.undefined) := by
      rw [hsplit]
      exact convertAll_append_error R v post _ (convert_invalid R v hbig hstr) pre ws hpre
    rw [overwriteMethod_convert_error R i rule original c args _ hflag herr]
    exact ⟨rfl, invalidOperand_of_result R _ v rfl⟩

/-- C11 on an example: `equal(10, 'Custom message')` on the subject
`Big('10')`, whose argument is a native number, leaves the chain as it was, its
message flag still unset, and raises the invalid-operand failure. -/
theorem fail_fast_coercion_witness :
    ((plugin exampleRendering exampleHost).methods "equal"
        ⟨Value.big ⟨10, 0⟩, false, Value.undefined, true⟩
        [Value.number 10, Value.string "Custom message"])
      = ⟨⟨Value.big ⟨10, 0⟩, false, Value.undefined, true⟩,
          Except.error (Failure.assertion "expected 10 to be an instance of Big or string"
            (Value.number 10) Value.undefined)⟩ :=
  (fail_fast_coercion exampleRendering exampleHost
      ⟨Value.big ⟨10, 0⟩, false, Value.undefined, true⟩
      [Value.number 10, Value.string "Custom message"]
      (Failure.assertion "expected 10 to be an instance of Big or string"
        (Value.number 10) Value.undefined) rfl).2.1
    "equal" (by simp [aliasGroups]) rfl

/-- C12 on the code: for a message that is not an array the rule receives
the converted subject, the converted arguments before the message index and
then exactly the message, to which `convert` is not applied; but an array in
the message position is spread by `concat`: called with the message
`['a', 'b']`, the rule receives `'a'` as its message and `'b'` as a further
argument, and `equal` sets the chain's message flag to `'a'`. -/
theorem message_argument_passing :
    (∀ (R : Rendering) (i : Nat) (rule original : Method) (c : Assertion)
        (args ws : List Value) (wa : Value),
        c.bignumber = true → convert R c.obj = Except.ok wa →
        convertAll R (args.take i) = Except.ok ws →
        (∀ ys : List Value, argAt args i ≠ Value.array ys) →
        overwriteMethod R i rule original c args = rule c (wa :: ws ++ [argAt args i]))
    ∧ (∀ (R : Rendering) (rule original : Method),
        overwriteMethod R 1 rule original ⟨Value.big ⟨10, 0⟩, false, Value.undefined, true⟩
            [Value.big ⟨9, 0⟩, Value.array [Value.string "a", Value.string "b"]]
          = rule ⟨Value.big ⟨10, 0⟩, false, Value.undefined, true⟩
            [Value.big ⟨10, 0⟩, Value.big ⟨9, 0⟩, Value.string "a", Value.string "b"])
    ∧ (∀ (R : Rendering) (A : Registry),
        ((plugin R A).methods "equal" ⟨Value.big ⟨10, 0⟩, false, Value.undefined, true⟩
            [Value.big ⟨9, 0⟩, Value.array [Value.string "a", Value.string "b"]]).chain.message
          = Value.string "a") := by
  refine ⟨?_, ?_, ?_⟩
  · intro R i rule original c args ws wa hflag ha hws hm
    simp only [overwriteMethod, hflag, if_true, ha, hws, concatValue_not_array _ _ hm]
    rfl
  · intro R rule original
    rfl
  · intro R A
    rw [plugin_methods R A ("equal", equalRule R) (by simp [comparisonMethods])]
    rfl

/-- C13, as stated, fails: with the native number 10 as the subject and
`'abc'`, a string the engine rejects, as the argument, `equal` on a flagged
chain raises the invalid-operand failure on the subject, not the engine's
error. -/
theorem malformed_literal_counterexample :
    Big.ofString "abc" = none
    ∧ (∀ (R : Rendering) (A : Registry),
      ((plugin R A).methods "equal" ⟨Value.number 10, false, Value.undefined, true⟩
        [Value.string "abc"]).invalidOperand (Value.number 10))
    ∧ ¬ ∃ (R : Rendering) (A : Registry) (e : Failure),
      construct "abc" = Except.error e
      ∧ ((plugin R A).methods "equal" ⟨Value.number 10, false, Value.undefined, true⟩
        [Value.string "abc"]).result = Except.error e := by
  have h : ∀ (R : Rendering) (A : Registry),
      ((plugin R A).methods "equal" ⟨Value.number 10, false, Value.undefined, true⟩
        [Value.string "abc"]).invalidOperand (Value.number 10) := by
    intro R A
    rw [plugin_methods R A ("equal", equalRule R) (by simp [comparisonMethods])]
    exact overwriteMethod_subject_invalid R 1 _ _
      ⟨Value.number 10, false, Value.undefined, true⟩ _ rfl rfl rfl
  refine ⟨by decide, h, ?_⟩
  rintro ⟨R, A, e, he, hres⟩
  obtain ⟨m, hm, _⟩ := h R A
  have hc : construct "abc" = Except.error (Failure.engine invalidNumber) := by
    have hp : Big.ofString "abc" = none := by decide
    simp [construct, hp]
  rw [hc] at he
  rw [hm] at hres
  have h1 := Except.error.inj he
  have h2 := Except.error.inj hres
  rw [← h1] at h2
  cases h2

/-- C13, amended: let `s` be a string on which the `Big` constructor throws
the error `e`.  Then `convert(s)` throws `e`; on a flagged chain with `s` as
the subject, every overwritten method, with any arguments, and both
properties throw `e`; with a subject that converts and `s` as the first
argument, every overwritten method throws `e`; and with a subject and a first
argument that convert and `s` as the second argument, `closeTo` throws `e`.
In each case the chain is left as it was. -/
theorem malformed_literal_unwrapped (R : Rendering) (A : Registry) (c : Assertion)
    (s : String) (e : Failure) (hflag : c.bignumber = true)
    (hs : construct s = Except.error e) :
    convert R (Value.string s) = Except.error e
    ∧ (c.obj = Value.string s →
        (∀ n ∈ aliasGroups.flatten ++ ["closeTo"], ∀ args : List Value,
          (plugin R A).methods n c args = ⟨c, Except.error e⟩)
        ∧ (∀ n ∈ ["negative", "zero"], (plugin R A).properties n c = ⟨c, Except.error e⟩))
    ∧ (∀ wa : Value, convert R c.obj = Except.ok wa →
        ∀ n ∈ aliasGroups.flatten ++ ["closeTo"], ∀ rest : List Value,
          (plugin R A).methods n c (Value.string s :: rest) = ⟨c, Except.error e⟩)
    ∧ (∀ wa wb vb : Value, convert R c.obj = Except.ok wa → convert R vb = Except.ok wb →
        ∀ rest : List Value,
          (plugin R A).methods "closeTo" c (vb :: Value.string s :: rest)
            = ⟨c, Except.error e⟩) := by
  have hv := convert_malformed R s e hs
  refine ⟨hv, ?_, ?_, ?_⟩
  · intro hobj
    rw [← hobj] at hv
    constructor
    · intro n hn args
      obtain ⟨i, rule, hw⟩ := method_wrapper R A n hn
      rw [hw]
      exact subject_error R _ rule _ c args e hflag hv
    · intro n hn
      simp only [List.mem_cons, List.mem_singleton, List.not_mem_nil, or_false] at hn
      rcases hn with h | h <;> subst h
      · rw [plugin_negative]
        exact overwriteProperty_convert_error R _ _ c e hflag hv
      · rw [plugin_zero]
        exact overwriteProperty_convert_error R _ _ c e hflag hv
  · intro wa ha n hn rest
    obtain ⟨i, rule, hw⟩ := method_wrapper R A n hn
    rw [hw]
    exact first_argument_error R i rule _ c wa _ rest e hflag ha hv
  · intro wa wb vb ha hb rest
    rw [plugin_closeTo]
    exact second_argument_error R 0 _ _ c wa wb vb _ rest e hflag ha hb hv

/-- C13 amended, on an example: with the subject `'abc'`, `equal('10')` throws
the engine's error and leaves the chain as it was. -/
theorem malformed_literal_unwrapped_witness :
    (plugin exampleRendering exampleHost).methods "equal"
        ⟨Value.string "abc", false, Value.undefined, true⟩ [Value.string "10"]
      = ⟨⟨Value.string "abc", false, Value.undefined, true⟩,
          Except.error (Failure.engine invalidNumber)⟩ :=
  ((malformed_literal_unwrapped exampleRendering exampleHost
      ⟨Value.string "abc", false, Value.undefined, true⟩ "abc"
      (Failure.engine invalidNumber) rfl rfl).2.1 rfl).1
    "equal" (by simp [aliasGroups]) [Value.string "10"]

/-- C14, as stated, fails: for the native number 10, the failure `equal`
raises when 10 is the subject is the very failure it raises when 10 is the
argument of a valid subject, message included, under every rendering. -/
theorem invalid_operand_phrasing_counterexample :
    (∀ (R : Rendering) (A : Registry),
      ((plugin R A).methods "equal" ⟨Value.number 10, false, Value.undefined, true⟩
        [Value.string "10"]).invalidOperand (Value.number 10))
    ∧ ¬ ∃ (R : Rendering) (A : Registry),
      ((plugin R A).methods "equal" ⟨Value.number 10, false, Value.undefined, true⟩
        [Value.string "10"]).result
      ≠ ((plugin R A).methods "equal" ⟨Value.big ⟨10, 0⟩, false, Value.undefined, true⟩
        [Value.number 10]).result := by
  constructor
  · intro R A
    rw [plugin_methods R A ("equal", equalRule R) (by simp [comparisonMethods])]
    exact overwriteMethod_subject_invalid R 1 _ _
      ⟨Value.number 10, false, Value.undefined, true⟩ _ rfl rfl rfl
  · rintro ⟨R, A, h⟩
    apply h
    rw [plugin_methods R A ("equal", equalRule R) (by simp [comparisonMethods])]
    rw [subject_invalid_result R 1 _ _ ⟨Value.number 10, false, Value.undefined, true⟩ _
        rfl rfl rfl,
      first_argument_invalid_result R 0 _ _ ⟨Value.big ⟨10, 0⟩, false, Value.undefined, true⟩
        (Value.big ⟨10, 0⟩) (Value.number 10) [] rfl rfl rfl rfl]

/-- C14, amended: for a value `v` that `isBig` does not recognise and that is
not a string, the invalid-operand failure has one phrasing: whether `v` is
the subject of a flagged chain or the first argument of a flagged chain whose
subject converts, every overwritten method raises the same failure, with `v`
as the actual value and the same message, which states the expected kinds (it
ends with `' to be an instance of Big or string'`). -/
theorem invalid_operand_phrasing (R : Rendering) (A : Registry) (c c' : Assertion)
    (v wa : Value) (hflag : c.bignumber = true) (hflag' : c'.bignumber = true)
    (hsubject : c.obj = v) (ha : convert R c'.obj = Except.ok wa)
    (hbig : isBig v = false) (hstr : v.isString = false) :
    ∃ m : String, endsWith m " to be an instance of Big or string"
      ∧ ∀ n ∈ aliasGroups.flatten ++ ["closeTo"], ∀ n' ∈ aliasGroups.flatten ++ ["closeTo"],
        ∀ args rest : List Value,
          ((plugin R A).methods n c args).result
            = Except.error (Failure.assertion m v Value.undefined)
          ∧ ((plugin R A).methods n' c' (v :: rest)).result
            = Except.error (Failure.assertion m v Value.undefined)
          ∧ ∀ vb wb : Value, convert R vb = Except.ok wb →
            ((plugin R A).methods "closeTo" c' (vb :: v :: rest)).result
              = Except.error (Failure.assertion m v Value.undefined) := by
  refine ⟨getMessage R (Assertion.fresh v) invalidOperandTemplate "" Value.undefined v,
    invalidOperand_message R v, ?_⟩
  intro n hn n' hn' args rest
  subst hsubject
  obtain ⟨i, rule, hw⟩ := method_wrapper R A n hn
  obtain ⟨i', rule', hw'⟩ := method_wrapper R A n' hn'
  rw [hw, hw']
  refine ⟨subject_invalid_result R _ rule _ c args hflag hbig hstr,
    first_argument_invalid_result R i' rule' _ c' wa c.obj rest hflag' ha hbig hstr, ?_⟩
  intro vb wb hb
  rw [plugin_closeTo, second_argument_error R 0 _ _ c' wa wb vb c.obj rest _ hflag' ha hb
    (convert_invalid R c.obj hbig hstr)]

/-- C14 amended, on an example: the number 10 as the subject of `equal` and as
the argument of `equal` on the subject `Big('10')` raises the same failure,
with the same message. -/
theorem invalid_operand_phrasing_witness :
    ∃ m : String, endsWith m " to be an instance of Big or string"
      ∧ ((plugin exampleRendering exampleHost).methods "equal"
          ⟨Value.number 10, false, Value.undefined, true⟩ [Value.string "10"]).result
        = Except.error (Failure.assertion m (Value.number 10) Value.undefined)
      ∧ ((plugin exampleRendering exampleHost).methods "equal"
          ⟨Value.big ⟨10, 0⟩, false, Value.undefined, true⟩ [Value.number 10]).result
        = Except.error (Failure.assertion m (Value.number 10) Value.undefined) :=
  match invalid_operand_phrasing exampleRendering exampleHost
      ⟨Value.number 10, false, Value.undefined, true⟩
      ⟨Value.big ⟨10, 0⟩, false, Value.undefined, true⟩
      (Value.number 10) (Value.big ⟨10, 0⟩) rfl rfl rfl rfl rfl rfl with
  | ⟨m, hm, h⟩ =>
    ⟨m, hm, (h "equal" (by simp [aliasGroups]) "equal" (by simp [aliasGroups])
      [Value.string "10"] []).1,
      (h "equal" (by simp [aliasGroups]) "equal" (by simp [aliasGroups])
      [Value.string "10"] []).2.1⟩

/-- C15: on a flagged chain whose subject denotes the decimal `a`, with an
argument denoting the decimal `b`, every equality and order method, and
`closeTo` with a valid tolerance, calls the chain's `assert` with the text of
`b` (the converted argument's `toString()`) as the expected value and the text
of `a` (the converted subject's `toString()`) as the actual value; so the
failure it raises carries these two strings, not the decimals themselves, and
its message is the template with `#{act}` filled from the subject's text and
`#{exp}` from the argument's. -/
theorem failure_carries_texts (R : Rendering) (A : Registry) (c : Assertion) (vb : Value)
    (rest : List Value) (a b : Big)
    (hflag : c.bignumber = true) (ha : c.obj.decimal = some a) (hb : vb.decimal = some b) :
    (∀ (n : String) (op : Big → Big → Bool) (pos neg : String),
      (n, op, pos, neg) ∈ comparisonTable →
        (plugin R A).methods n c (vb :: rest)
          = ⟨setMessage c (spreadHead (argAt (vb :: rest) 1)),
              (setMessage c (spreadHead (argAt (vb :: rest) 1))).assert R (op a b) pos neg
                (Value.string (R.bigToString b)) (some (Value.string (R.bigToString a)))⟩
        ∧ (¬ ((plugin R A).methods n c (vb :: rest)).passes →
            ((plugin R A).methods n c (vb :: rest)).result
              = Except.error (Failure.assertion
                  (getMessage R (setMessage c (spreadHead (argAt (vb :: rest) 1))) pos neg
                    (Value.string (R.bigToString b)) (Value.string (R.bigToString a)))
                  (Value.string (R.bigToString a)) (Value.string (R.bigToString b)))))
    ∧ (∀ (vd : Value) (d : Big), vd.decimal = some d →
        ∃ (verdict : Bool) (pos neg : String),
          (plugin R A).methods "closeTo" c (vb :: vd :: rest)
            = ⟨setMessage c (spreadHead (argAt (vb :: vd :: rest) 2)),
                (setMessage c (spreadHead (argAt (vb :: vd :: rest) 2))).assert R verdict
                  pos neg (Value.string (R.bigToString b))
                  (some (Value.string (R.bigToString a)))⟩
          ∧ (¬ ((plugin R A).methods "closeTo" c (vb :: vd :: rest)).passes →
              ((plugin R A).methods "closeTo" c (vb :: vd :: rest)).result
                = Except.error (Failure.assertion
                    (getMessage R (setMessage c (spreadHead (argAt (vb :: vd :: rest) 2)))
                      pos neg (Value.string (R.bigToString b))
                      (Value.string (R.bigToString a)))
                    (Value.string (R.bigToString a)) (Value.string (R.bigToString b))))) := by
  constructor
  · intro n op pos neg ht
    refine ⟨comparison_call R A n op pos neg ht c vb rest a b hflag ha hb, ?_⟩
    rw [comparison_call R A n op pos neg ht c vb rest a b hflag ha hb]
    intro h
    simp only [Outcome.passes, assert_passes_iff, Bool.not_eq_true] at h
    exact assert_of_false R _ _ _ _ _ _ h
  · intro vd d hd
    refine ⟨Big.gte a (Big.sub b d) && Big.lte a (Big.add b d),
      "expected #{act} to be within '" ++ R.bigToString d ++ "' of #{exp}",
      "expected #{act} to be further than '" ++ R.bigToString d ++ "' from #{exp}",
      closeTo_call R A c vb vd rest a b d hflag ha hb hd, ?_⟩
    rw [closeTo_call R A c vb vd rest a b d hflag ha hb hd]
    intro h
    simp only [Outcome.passes, assert_passes_iff, Bool.not_eq_true] at h
    exact assert_of_false R _ _ _ _ _ _ h

/-- C15 on an example: `equal('9')` on the subject `Big('10')` raises the
failure with the actual value `'10'`, the expected value `'9'` and the message
that shows them in this order. -/
theorem failure_carries_texts_witness :
    ((plugin exampleRendering exampleHost).methods "equal"
        ⟨Value.big ⟨10, 0⟩, false, Value.undefined, true⟩ [Value.big ⟨9, 0⟩]).result
      = Except.error (Failure.assertion "expected '10' to equal '9'"
          (Value.string "10") (Value.string "9")) :=
  (congrArg Outcome.result
    ((failure_carries_texts exampleRendering exampleHost
      ⟨Value.big ⟨10, 0⟩, false, Value.undefined, true⟩ (Value.big ⟨9, 0⟩) []
      ⟨10, 0⟩ ⟨9, 0⟩ rfl rfl rfl).1 "equal" _ _ _ (equal_mem_table "equal" (by simp))).1).trans
    rfl

/-- C16, the code at a failing input: with the subject `Big('1')`, the
property `negative` raises a failure whose message has the display of the
subject itself (the object, not its text) in the place of `#{this}`; the text
`'1'` of the converted subject is only the failure's expected value.  For
every rendering the message is the template filled with the display of the
raw subject. -/
theorem sign_template_shows_raw_subject :
    ((plugin exampleRendering exampleHost).properties "negative"
        ⟨Value.big ⟨1, 0⟩, false, Value.undefined, true⟩).result
      = Except.error (Failure.assertion "expected [object] to be negative"
          (Value.big ⟨1, 0⟩) (Value.string "1"))
    ∧ (∀ (R : Rendering) (A : Registry),
        ((plugin R A).properties "negative"
          ⟨Value.big ⟨1, 0⟩, false, Value.undefined, true⟩).result
        = Except.error (Failure.assertion
            (substitute R (Value.big ⟨1, 0⟩) (Value.big ⟨1, 0⟩)
              (Value.string (R.bigToString ⟨1, 0⟩)) "expected #{this} to be negative")
            (Value.big ⟨1, 0⟩) (Value.string (R.bigToString ⟨1, 0⟩))))
    ∧ (∀ (R : Rendering) (A : Registry),
        ((plugin R A).properties "zero"
          ⟨Value.big ⟨1, 0⟩, false, Value.undefined, true⟩).result
        = Except.error (Failure.assertion
            (substitute R (Value.big ⟨1, 0⟩) (Value.big ⟨1, 0⟩)
              (Value.string (R.bigToString ⟨1, 0⟩)) "expected #{this} to be zero")
            (Value.big ⟨1, 0⟩) (Value.string (R.bigToString ⟨1, 0⟩)))) := by
  have hneg : ∀ (R : Rendering) (A : Registry),
      ((plugin R A).properties "negative"
        ⟨Value.big ⟨1, 0⟩, false, Value.undefined, true⟩).result
      = Except.error (Failure.assertion
          (substitute R (Value.big ⟨1, 0⟩) (Value.big ⟨1, 0⟩)
            (Value.string (R.bigToString ⟨1, 0⟩)) "expected #{this} to be negative")
          (Value.big ⟨1, 0⟩) (Value.string (R.bigToString ⟨1, 0⟩))) := by
    intro R A
    rw [negative_call R A ⟨Value.big ⟨1, 0⟩, false, Value.undefined, true⟩ ⟨1, 0⟩ rfl rfl]
    exact assert_of_false R ⟨Value.big ⟨1, 0⟩, false, Value.undefined, true⟩
      (Big.lt ⟨1, 0⟩ Big.zero) _ _ _ _ (by decide)
  refine ⟨(hneg exampleRendering exampleHost).trans rfl, hneg, ?_⟩
  intro R A
  rw [zero_call R A ⟨Value.big ⟨1, 0⟩, false, Value.undefined, true⟩ ⟨1, 0⟩ rfl rfl]
  exact assert_of_false R ⟨Value.big ⟨1, 0⟩, false, Value.undefined, true⟩
    (Big.eq ⟨1, 0⟩ Big.zero) _ _ _ _ (by decide)

/-- C17: on every chain, reading the property `bignumber` returns normally
and sets the chain's `bignumber` flag to true, leaving the subject, the
negation and the message as they were; reading it again on the resulting chain
leaves that chain as it is; and on the resulting chain every overwritten
method and property is the decimal branch of its wrapper with the rule the
source registers for it: the subject and the operands are converted and the
rule is applied, the host's original operation playing no part.  So, on the
resulting chain, with a subject and operands that denote decimals, each
equality and order method, `closeTo`, `negative` and `zero` is the chain's
`assert` on the engine's verdict. -/
theorem mode_marker (R : Rendering) (A : Registry) (c : Assertion) :
    (plugin R A).properties "bignumber" c = ⟨{ c with bignumber := true }, Except.ok ()⟩
    ∧ ((plugin R A).properties "bignumber" c).chain.obj = c.obj
    ∧ ((plugin R A).properties "bignumber" c).chain.negate = c.negate
    ∧ ((plugin R A).properties "bignumber" c).chain.message = c.message
    ∧ ((plugin R A).properties "bignumber" c).chain.bignumber = true
    ∧ (plugin R A).properties "bignumber" ((plugin R A).properties "bignumber" c).chain
        = (plugin R A).properties "bignumber" c
    ∧ (∀ p ∈ comparisonMethods R, ∀ args : List Value,
        (plugin R A).methods p.1 ((plugin R A).properties "bignumber" c).chain args
          = decimalBranch R 1 p.2 ((plugin R A).properties "bignumber" c).chain args)
    ∧ (∀ args : List Value,
        (plugin R A).methods "closeTo" ((plugin R A).properties "bignumber" c).chain args
          = decimalBranch R 2 (closeToRule R)
              ((plugin R A).properties "bignumber" c).chain args)
    ∧ (plugin R A).properties "negative" ((plugin R A).properties "bignumber" c).chain
        = decimalPropertyBranch R (negativeRule R)
            ((plugin R A).properties "bignumber" c).chain
    ∧ (plugin R A).properties "zero" ((plugin R A).properties "bignumber" c).chain
        = decimalPropertyBranch R (zeroRule R) ((plugin R A).properties "bignumber" c).chain
    ∧ (∀ a : Big, c.obj.decimal = some a →
        (∀ (n : String) (op : Big → Big → Bool) (pos neg : String),
          (n, op, pos, neg) ∈ comparisonTable →
          ∀ (vb : Value) (rest : List Value) (b : Big), vb.decimal = some b →
            (plugin R A).methods n ((plugin R A).properties "bignumber" c).chain (vb :: rest)
              = ⟨setMessage { c with bignumber := true } (spreadHead (argAt (vb :: rest) 1)),
                  (setMessage { c with bignumber := true }
                      (spreadHead (argAt (vb :: rest) 1))).assert R (op a b) pos neg
                    (Value.string (R.bigToString b))
                    (some (Value.string (R.bigToString a)))⟩)
        ∧ (∀ (vb vd : Value) (rest : List Value) (b d : Big),
            vb.decimal = some b → vd.decimal = some d →
            (plugin R A).methods "closeTo" ((plugin R A).properties "bignumber" c).chain
                (vb :: vd :: rest)
              = ⟨setMessage { c with bignumber := true }
                    (spreadHead (argAt (vb :: vd :: rest) 2)),
                  (setMessage { c with bignumber := true }
                      (spreadHead (argAt (vb :: vd :: rest) 2))).assert R
                    (Big.gte a (Big.sub b d) && Big.lte a (Big.add b d))
                    ("expected #{act} to be within '" ++ R.bigToString d ++ "' of #{exp}")
                    ("expected #{act} to be further than '" ++ R.bigToString d
                      ++ "' from #{exp}")
                    (Value.string (R.bigToString b))
                    (some (Value.string (R.bigToString a)))⟩)
        ∧ (plugin R A).properties "negative" ((plugin R A).properties "bignumber" c).chain
            = ⟨{ c with bignumber := true },
                ({ c with bignumber := true } : Assertion).assert R (Big.lt a Big.zero)
                  "expected #{this} to be negative" "expected #{this} to not be negative"
                  (Value.string (R.bigToString a)) none⟩
        ∧ (plugin R A).properties "zero" ((plugin R A).properties "bignumber" c).chain
            = ⟨{ c with bignumber := true },
                ({ c with bignumber := true } : Assertion).assert R (Big.eq a Big.zero)
                  "expected #{this} to be zero" "expected #{this} to not be zero"
                  (Value.string (R.bigToString a)) none⟩) := by
  rw [plugin_bignumber]
  refine ⟨rfl, rfl, rfl, rfl, rfl, rfl, ?_, ?_, ?_, ?_, ?_⟩
  · intro p hp args
    rw [plugin_methods R A p hp]
    exact overwriteMethod_decimalBranch R 1 p.2 _ _ args rfl
  · intro args
    rw [plugin_closeTo]
    exact overwriteMethod_decimalBranch R 2 _ _ _ args rfl
  · rw [plugin_negative]
    exact overwriteProperty_decimalBranch R _ _ _ rfl
  · rw [plugin_zero]
    exact overwriteProperty_decimalBranch R _ _ _ rfl
  · intro a ha
    refine ⟨?_, ?_, ?_, ?_⟩
    · intro n op pos neg ht vb rest b hb
      exact comparison_call R A n op pos neg ht { c with bignumber := true } vb rest a b
        rfl ha hb
    · intro vb vd rest b d hb hd
      exact closeTo_call R A { c with bignumber := true } vb vd rest a b d rfl ha hb hd
    · exact negative_call R A { c with bignumber := true } a rfl ha
    · exact zero_call R A { c with bignumber := true } a rfl ha

/-- C18: `isBig(v)` holds iff `v` is an instance of the given `Big` or `v` is
truthy and its constructor's name is `'Big'`; `convert` returns every such `v`
as it is; on every other value that is not a string `isBig` is false and
`convert` raises the invalid-operand failure on it, and nothing else.  So a
decimal of another copy of the engine and an object whose constructor is named
`'Big'` are recognised, and `null`, `undefined`, `0`, `false` and an object
with another constructor are not. -/
theorem foreign_big_recognition (R : Rendering) :
    (∀ v : Value, isBig v = true
      ↔ ((∃ b : Big, v = Value.big b) ∨ (v.truthy = true ∧ v.constructorName = some "Big")))
    ∧ (∀ v : Value, isBig v = true → convert R v = Except.ok v)
    ∧ (∀ v : Value, isBig v = false → v.isString = false →
        ∃ m : String, convert R v = Except.error (Failure.assertion m v Value.undefined)
          ∧ endsWith m " to be an instance of Big or string")
    ∧ (∀ b : Big, isBig (Value.foreignBig b) = true)
    ∧ isBig (Value.object (some "Big")) = true
    ∧ isBig Value.null = false ∧ isBig Value.undefined = false
    ∧ isBig (Value.number 0) = false ∧ isBig (Value.bool false) = false
    ∧ isBig (Value.object (some "Other")) = false ∧ isBig (Value.object none) = false := by
  refine ⟨isBig_iff, convert_isBig R, ?_, fun _ => rfl, by decide, rfl, rfl, rfl, rfl,
    by decide, rfl⟩
  intro v hbig hstr
  exact ⟨_, convert_invalid R v hbig hstr, invalidOperand_message R v⟩

/-- C19: on a flagged chain whose subject denotes a decimal, a method with
message index `i` called with fewer than `i` arguments converts the subject
and the arguments it was given and applies its rule to them followed by
`undefined`, so that every operand position after the given arguments holds
`undefined`; the missing operand raises no invalid-operand failure: `closeTo`
without a tolerance and the order methods without an argument throw the
engine's error, `equal` without an argument and `closeTo` without arguments
throw a type error.  With `undefined` written in an operand position the call
raises the invalid-operand failure on it. -/
theorem omitted_operands (R : Rendering) (A : Registry) (c : Assertion) (a : Big)
    (hflag : c.bignumber = true) (ha : c.obj.decimal = some a) :
    (∀ (i : Nat) (rule original : Method) (args ws : List Value) (wa : Value),
        args.length < i → convert R c.obj = Except.ok wa →
        convertAll R args = Except.ok ws →
        overwriteMethod R i rule original c args = rule c (wa :: ws ++ [Value.undefined])
        ∧ ws.length = args.length
        ∧ ∀ j : Nat, args.length < j →
            argAt (wa :: ws ++ [Value.undefined]) j = Value.undefined)
    ∧ (∀ (vb : Value) (b : Big), vb.decimal = some b →
        (plugin R A).methods "closeTo" c [vb]
          = ⟨c, Except.error (Failure.engine invalidNumber)⟩)
    ∧ (plugin R A).methods "closeTo" c [] = ⟨c, Except.error Failure.typeError⟩
    ∧ (∀ n ∈ ["equal", "equals", "eq"],
        (plugin R A).methods n c [] = ⟨c, Except.error Failure.typeError⟩)
    ∧ (∀ n ∈ ["above", "gt", "greaterThan", "least", "gte", "below", "lt", "lessThan",
          "most", "lte"],
        (plugin R A).methods n c [] = ⟨c, Except.error (Failure.engine invalidNumber)⟩)
    ∧ (∀ n ∈ aliasGroups.flatten ++ ["closeTo"], ∀ rest : List Value,
        ((plugin R A).methods n c (Value.undefined :: rest)).invalidOperand Value.undefined)
    ∧ (∀ (vb : Value) (b : Big), vb.decimal = some b → ∀ rest : List Value,
        ((plugin R A).methods "closeTo" c (vb :: Value.undefined :: rest)).invalidOperand
          Value.undefined) := by
  obtain ⟨wa, hca, hwa⟩ := convert_decimal R c.obj a ha
  refine ⟨?_, ?_, ?_, ?_, ?_, ?_, ?_⟩
  · intro i rule original args ws wa1 hk ha1 hargs
    have hlen := convertAll_length R args ws hargs
    refine ⟨overwriteMethod_omitted R i rule original c args ws wa1 hflag hk ha1 hargs,
      hlen, ?_⟩
    intro j hj
    exact argAt_after_converted wa1 ws j (by omega)
  · intro vb b hb
    obtain ⟨wb, hcb, hwb⟩ := convert_decimal R vb b hb
    rw [plugin_closeTo, overwriteMethod_omitted R 2 _ _ c [vb] [wb] wa hflag (by simp) hca
      (by simp [convertAll, hcb])]
    exact closeToRule_missing_delta R c wa wb a b hwa hwb
  · rw [plugin_closeTo, overwriteMethod_omitted R 2 _ _ c [] [] wa hflag (by simp) hca rfl]
    exact closeToRule_missing_both R c wa
  · intro n hn
    rw [equal_method_form R A n hn,
      overwriteMethod_omitted R 1 _ _ c [] [] wa hflag (by simp) hca rfl]
    exact equalRule_missing R c wa
  · intro n hn
    obtain ⟨op, pos, neg, hw⟩ := order_method_form R A n hn
    rw [hw, overwriteMethod_omitted R 1 _ _ c [] [] wa hflag (by simp) hca rfl]
    exact orderRule_missing R op pos neg c wa a hwa
  · intro n hn rest
    obtain ⟨i, rule, hw⟩ := method_wrapper R A n hn
    rw [hw]
    exact overwriteMethod_first_invalid R i rule _ c wa Value.undefined rest hflag hca rfl rfl
  · intro vb b hb rest
    obtain ⟨wb, hcb, hwb⟩ := convert_decimal R vb b hb
    rw [plugin_closeTo]
    apply invalidOperand_of_result R
    rw [second_argument_error R 0 _ _ c wa wb vb Value.undefined rest _ hflag hca hcb
      (convert_invalid R Value.undefined rfl rfl)]

/-- C19 on the claim's examples: `closeTo('10')` without a tolerance on the
subject `Big('15')` throws the engine's error, while `closeTo('10', undefined)`
raises the invalid-operand failure on `undefined`. -/
theorem omitted_operands_witness :
    (plugin exampleRendering exampleHost).methods "closeTo"
        ⟨Value.big ⟨15, 0⟩, false, Value.undefined, true⟩ [Value.string "10"]
      = ⟨⟨Value.big ⟨15, 0⟩, false, Value.undefined, true⟩,
          Except.error (Failure.engine invalidNumber)⟩
    ∧ ((plugin exampleRendering exampleHost).methods "closeTo"
        ⟨Value.big ⟨15, 0⟩, false, Value.undefined, true⟩
        [Value.string "10", Value.undefined]).invalidOperand Value.undefined :=
  ⟨(omitted_operands exampleRendering exampleHost
      ⟨Value.big ⟨15, 0⟩, false, Value.undefined, true⟩ ⟨15, 0⟩ rfl rfl).2.1
      (Value.string "10") ⟨10, 0⟩ (by decide),
   (omitted_operands exampleRendering exampleHost
      ⟨Value.big ⟨15, 0⟩, false, Value.undefined, true⟩ ⟨15, 0⟩ rfl rfl).2.2.2.2.2.2
      (Value.string "10") ⟨10, 0⟩ (by decide) []⟩

end ChaiBig
